import Mathlib

/-!
Verification development for the deepwiki-mcp repository.

Strings from the JavaScript/TypeScript sources are modelled as lists of
characters (`Str`), so that every string operation of the source
(`trim`, `split`, `slice`, `indexOf`, ...) can be given a direct,
executable embedding with provable equations.  JavaScript objects used
as insertion-ordered maps are modelled as association lists.  A
JavaScript function that can throw is modelled with `Option`/`Except`
(`none` = a runtime exception escapes).
-/

/-- Character-list model of a JavaScript string. -/
abbrev Str := List Char

/-- The backtick character (written via its code point). -/
def backtickChar : Char := Char.ofNat 96

/-- Whitespace test used by the model of `String.prototype.trim` (the
JavaScript original also strips some rarer Unicode spaces; only ASCII
whitespace is relevant to this development). -/
def isWsChar (c : Char) : Bool := c.isWhitespace

/-- Model of JavaScript `s.trim()`. -/
def jsTrim (s : Str) : Str :=
  ((s.dropWhile isWsChar).reverse.dropWhile isWsChar).reverse

/-- Auxiliary loop for `splitOnChar`. -/
def splitOnCharGo (sep : Char) : Str → Str → List Str
  | [], acc => [acc.reverse]
  | c :: rest, acc =>
    if c = sep then acc.reverse :: splitOnCharGo sep rest []
    else splitOnCharGo sep rest (c :: acc)

/-- Model of JavaScript `s.split(sep)` for a one-character separator:
`"" ↦ [""]`, `"a/b" ↦ ["a", "b"]`, `"/" ↦ ["", ""]`. -/
def splitOnChar (sep : Char) (s : Str) : List Str := splitOnCharGo sep s []

/-- Does `s` start with `p`? (model of `String.prototype.startsWith`). -/
def strStartsWith : Str → Str → Bool
  | _, [] => true
  | [], _ :: _ => false
  | c :: cs, d :: ds => c = d && strStartsWith cs ds

/-- Does `hay` contain `needle` as a contiguous substring?
(model of `String.prototype.includes`). -/
def strHasSub : Str → Str → Bool
  | [], needle => needle.isEmpty
  | hay@(_ :: rest), needle => strStartsWith hay needle || strHasSub rest needle

/-- First index at which `needle` occurs in `hay`, if any. -/
def strIdxOfSub : Str → Str → Option Nat
  | [], needle => if needle.isEmpty then some 0 else none
  | hay@(_ :: rest), needle =>
    if strStartsWith hay needle then some 0
    else (strIdxOfSub rest needle).map (· + 1)

/-- Scan every suffix position, remembering the last one at which
`needle` starts. -/
def strLastIdxOfSubGo : Str → Str → Nat → Option Nat → Option Nat
  | [], needle, pos, best => if needle.isEmpty then some pos else best
  | c :: rest, needle, pos, best =>
    strLastIdxOfSubGo rest needle (pos + 1)
      (if strStartsWith (c :: rest) needle then some pos else best)

/-- Last index at which `needle` occurs in `hay`, if any
(model of `String.prototype.lastIndexOf`). -/
def strLastIdxOfSub (hay needle : Str) : Option Nat :=
  strLastIdxOfSubGo hay needle 0 none

/-- First index `≥ start` of the character `c` in `s`
(model of `s.indexOf(c, start)`). -/
def strIdxOfCharFrom (s : Str) (start : Nat) (c : Char) : Option Nat :=
  (strIdxOfSub (s.drop start) [c]).map (· + start)

/-- Decimal digits of a natural number (model of JavaScript number →
string interpolation for non-negative integers). -/
def natStr (n : Nat) : Str := Nat.toDigits 10 n

/-- Decimal rendering of an integer. -/
def intStr (n : Int) : Str :=
  if n < 0 then '-' :: natStr n.natAbs else natStr n.toNat

/-- Join a list of strings with a separator (model of `Array.prototype.join`). -/
def joinWith (sep : Str) : List Str → Str
  | [] => []
  | [s] => s
  | s :: t :: rest => s ++ sep ++ joinWith sep (t :: rest)

/-- Model of `Array.prototype.slice(s, e)` for non-negative indices. -/
def jsSliceNat {α : Type} (l : List α) (s e : Nat) : List α :=
  (l.drop s).take (e - s)

/-- Model of `Array.prototype.slice(s, e)` with the full negative-index
semantics of JavaScript. -/
def jsSliceInt {α : Type} (l : List α) (s e : Int) : List α :=
  let n : Int := l.length
  let s' : Int := if s < 0 then max 0 (n + s) else min s n
  let e' : Int := if e < 0 then max 0 (n + e) else min e n
  jsSliceNat l s'.toNat e'.toNat

/-- ASCII-lowercasing (model of `String.prototype.toLowerCase` on the
ASCII strings that occur in the sources). -/
def toLowerStr (s : Str) : Str := s.map Char.toLower

/-- Lookup in an insertion-ordered association list (model of reading a
property of a JavaScript object used as a map). -/
def alookup {β : Type} : List (Str × β) → Str → Option β
  | [], _ => none
  | (k, v) :: rest, key => if k = key then some v else alookup rest key

/-- JavaScript string truthiness: a string is truthy iff non-empty. -/
def truthyStr (s : Str) : Bool := !s.isEmpty

/-- Truthiness of an optional string (absent = `undefined` = falsy). -/
def optTruthy : Option Str → Bool
  | none => false
  | some s => truthyStr s

/-!
Model of `src/parsers/json-transformer.ts` (source file `unnamed/part_007`).
-/

/-- File reference with line range (`Reference` / `ReferenceData`). -/
structure ReferenceT where
  file_path : Str
  range_start : Nat
  range_end : Nat
deriving DecidableEq, Repr

/-- Runtime shape of the dynamic `data` field of a response item:
the TypeScript union `string | ReferenceData | StatsData |
[string, string, string]`, plus the absent (`undefined`) case. -/
inductive ItemData where
  | strD (s : Str)
  | refD (r : ReferenceT)
  | statsD (key : Str) (value : Int)
  | arrD (repoPath filename content : Str)
  | noneD
deriving DecidableEq, Repr

/-- An individual item in the API response array (`ResponseItem`).
The `type` field is called `ty` here. -/
structure ResponseItem where
  ty : Str
  data : ItemData
deriving DecidableEq, Repr

/-- Query object from the API (`ApiQuery`); the fields not consumed by
the code under verification (`use_knowledge`, `engine_id`,
`redis_stream`) are omitted. -/
structure ApiQuery where
  user_query : Str
  repo_context_ids : List Str
  response : List ResponseItem
  error : Option Str
  state : Str
deriving DecidableEq, Repr

/-- `rawResponse` may be a single query object or an array of them. -/
inductive RawResponse where
  | one (q : ApiQuery)
  | many (qs : List ApiQuery)
deriving DecidableEq, Repr

/-- Input to `transformResponse` (`InputResponse`); the fields not read
by it (`timestamp`, `success`, `answer`, `stats`) are omitted. -/
structure InputResponse where
  queryId : Str
  references : List ReferenceT
  rawResponse : RawResponse
deriving DecidableEq, Repr

/-- An answer segment: text with an optional reference string. -/
structure AnswerSegment where
  text : Str
  reference : Option Str
deriving DecidableEq, Repr

/-- One entry of the referenced-files map. -/
structure ReferencedFile where
  reference_range : Str
  reference_material : Str
deriving DecidableEq, Repr

/-- One full-file capture. -/
structure FullContextItem where
  file_name : Str
  text : Str
deriving DecidableEq, Repr

/-- One conversation turn of the normalized output. -/
structure ConversationQuery where
  user_query : Str
  answer_segments : List AnswerSegment
deriving DecidableEq, Repr

/-- Output of `transformResponse`; `referenced_files` is a JavaScript
object used as an insertion-ordered map, modelled as an association
list. -/
structure OutputResponse where
  query_id : Str
  conversation : List ConversationQuery
  repo_context_ids : List Str
  referenced_files : List (Str × List ReferencedFile)
  full_context : List FullContextItem
deriving DecidableEq, Repr

/-- The queries array: `Array.isArray(input.rawResponse) ?
input.rawResponse : [input.rawResponse]`. -/
def rawQueries : RawResponse → List ApiQuery
  | .one q => [q]
  | .many qs => qs

/-- Attempt to match `\s+([^:]+)` followed by a literal `:` (the first
capture group of the regex `/Repo\s+([^:]+):\s+([^:]+)(?::\d+-\d+)?/`),
returning the group and the text after the colon.  The greedy `\s+` may
give back its final character to `[^:]+` when the character after the
whitespace run is already the colon. -/
def repoMatchGroup1 (s : Str) : Option (Str × Str) :=
  let w := s.takeWhile isWsChar
  if w.isEmpty then none
  else
    let afterW := s.dropWhile isWsChar
    let r := afterW.takeWhile (fun c => decide (c ≠ ':'))
    if !r.isEmpty then
      match afterW.drop r.length with
      | ':' :: tail => some (r, tail)
      | _ => none
    else
      match afterW with
      | ':' :: tail =>
        if 2 ≤ w.length then (w.getLast?).map (fun c => ([c], tail)) else none
      | _ => none

/-- Attempt to match the trailing `\s+([^:]+)(?::\d+-\d+)?` of the same
regex, returning the second capture group (the optional range group
never affects the captures). -/
def repoMatchGroup2 (s : Str) : Option Str :=
  let w := s.takeWhile isWsChar
  if w.isEmpty then none
  else
    let r := (s.dropWhile isWsChar).takeWhile (fun c => decide (c ≠ ':'))
    if !r.isEmpty then some r
    else if 2 ≤ w.length then (w.getLast?).map (fun c => [c])
    else none

/-- Attempt the full `Repo` regex at the start of `s`. -/
def matchRepoRegexAt (s : Str) : Option (Str × Str) :=
  if strStartsWith s "Repo".data then
    match repoMatchGroup1 (s.drop 4) with
    | some (g1, rest1) =>
      match repoMatchGroup2 rest1 with
      | some g2 => some (g1, g2)
      | none => none
    | none => none
  else none

/-- Model of `filePath.match(/Repo\s+([^:]+):\s+([^:]+)(?::\d+-\d+)?/)`:
the leftmost start position at which the pattern matches wins. -/
def matchRepoRegex : Str → Option (Str × Str)
  | [] => none
  | s@(_ :: rest) =>
    match matchRepoRegexAt s with
    | some g => some g
    | none => matchRepoRegex rest

/-- The `:start-end` suffix appended to formatted reference strings.
In the source this is guarded by `rangeStart !== undefined &&
rangeEnd !== undefined`, which always holds for the typed
`ReferenceData` shape modelled here. -/
def rangeSuffix (rs re : Nat) : Str :=
  ":".data ++ natStr rs ++ "-".data ++ natStr re

/-- Reference-string formatting for an answer segment
(`transformResponse`, segment loop): normalizes both source path shapes
into `owner/name: path:start-end`. -/
def formatRefStr (r : ReferenceT) : Str :=
  let filePath := r.file_path
  if strHasSub filePath "Repo ".data then
    match matchRepoRegex filePath with
    | some (g1, g2) => g1 ++ ": ".data ++ g2 ++ rangeSuffix r.range_start r.range_end
    | none => filePath
  else
    let parts := splitOnChar '/' filePath
    if 3 ≤ parts.length then
      joinWith "/".data (jsSliceNat parts 0 2) ++ ": ".data ++
        joinWith "/".data (parts.drop 2) ++ rangeSuffix r.range_start r.range_end
    else filePath ++ rangeSuffix r.range_start r.range_end

/-- The segment-accumulation loop of `transformResponse`: walk the
response items, pushing truthy string chunks onto the pending buffer
and closing the buffer into a referenced segment at each
object-shaped `reference` item.  Returns `none` when the JavaScript
original would throw: a `reference` item whose object datum has no
`file_path` string (the stats shape) reaches
`filePath.includes('Repo ')` with `filePath === undefined`. -/
def buildSegments : List ResponseItem → List Str → Option (List AnswerSegment)
  | [], chunks =>
    some (if chunks.isEmpty then [] else [AnswerSegment.mk chunks.join none])
  | item :: rest, chunks =>
    if item.ty = "chunk".data then
      match item.data with
      | .strD s =>
        if truthyStr s then buildSegments rest (chunks ++ [s])
        else buildSegments rest chunks
      | _ => buildSegments rest chunks
    else if item.ty = "reference".data then
      match item.data with
      | .refD r =>
        if chunks.isEmpty then buildSegments rest chunks
        else
          (buildSegments rest []).map
            (fun segs => AnswerSegment.mk chunks.join (some (formatRefStr r)) :: segs)
      | .statsD _ _ =>
        if chunks.isEmpty then buildSegments rest chunks
        else none
      | _ => buildSegments rest chunks
    else buildSegments rest chunks

/-- The progress marker echoed by the remote engine. -/
def searchMarker : Str := "Searching codebase...".data

/-- Strip everything up to and including the line containing the last
occurrence of the search marker, plus following newlines. -/
def filterSearchText (t : Str) : Str :=
  if strHasSub t searchMarker then
    match strLastIdxOfSub t searchMarker with
    | some lastIndex =>
      let endOfLine :=
        match strIdxOfCharFrom t lastIndex '\n' with
        | some e => e
        | none => t.length
      (t.drop (endOfLine + 1)).dropWhile (fun c => decide (c = '\n'))
    | none => t
  else t

/-- Apply the search-marker filter to the text of the first answer
segment of the first conversation turn, when that text is truthy. -/
def applySearchFilter (conv : List ConversationQuery) : List ConversationQuery :=
  match conv with
  | [] => []
  | q :: rest =>
    match q.answer_segments with
    | [] => q :: rest
    | s :: ss =>
      if truthyStr s.text then
        { q with answer_segments := { s with text := filterSearchText s.text } :: ss } :: rest
      else q :: rest

/-- Overwriting insertion into the file-content map (JavaScript object
property assignment: key order is first insertion, value is the last
write). -/
def fileMapUpsert (m : List (Str × List Str)) (k : Str) (v : List Str) :
    List (Str × List Str) :=
  match m with
  | [] => [(k, v)]
  | (k', v') :: rest =>
    if k' = k then (k', v) :: rest else (k', v') :: fileMapUpsert rest k v

/-- One step of the `file_contents` scan: record the capture in
`full_context` and in the line-split file-content map. -/
def fileStep (acc : List FullContextItem × List (Str × List Str))
    (item : ResponseItem) : List FullContextItem × List (Str × List Str) :=
  if item.ty = "file_contents".data then
    match item.data with
    | .arrD repoPath filename content =>
      let fullPath := repoPath ++ "/".data ++ filename
      (acc.1 ++ [FullContextItem.mk fullPath content],
       fileMapUpsert acc.2 fullPath (splitOnChar '\n' content))
    | _ => acc
  else acc

/-- Scan all queries for `file_contents` items, building the
`full_context` list and the file-content map. -/
def fileArtifacts (queries : List ApiQuery) :
    List FullContextItem × List (Str × List Str) :=
  queries.foldl (fun acc q => q.response.foldl fileStep acc) ([], [])

/-- Append an entry under a key of the referenced-files map, creating
the key at the end of the map when absent (the source first ensures
`referenced_files[filePath] = []`, then pushes). -/
def addRefEntry (m : List (Str × List ReferencedFile)) (k : Str)
    (e : ReferencedFile) : List (Str × List ReferencedFile) :=
  match m with
  | [] => [(k, [e])]
  | (k', es) :: rest =>
    if k' = k then (k', es ++ [e]) :: rest else (k', es) :: addRefEntry rest k e

/-- Normalize a raw reference path to the key used in the
referenced-files map (`Repo owner/name: path` becomes
`owner/name/path`; anything else is kept as is). -/
def refKeyOf (fp : Str) : Str :=
  if strHasSub fp "Repo ".data then
    match matchRepoRegex fp with
    | some (g1, g2) => g1 ++ "/".data ++ g2
    | none => fp
  else fp

/-- Extract the material for a reference from the captured file lines:
start is the 1-based start minus one and the end index is the raw
`range_end` (one line more than an inclusive 0-based reading),
clamped to the file's line count. -/
def refMaterial (fileMap : List (Str × List Str)) (r : ReferenceT) (key : Str) : Str :=
  match alookup fileMap key with
  | some fileLines =>
    let startLine := r.range_start - 1
    let endLine := min (fileLines.length - 1) r.range_end
    if startLine ≤ endLine then
      joinWith "\n".data (jsSliceNat fileLines startLine (endLine + 1))
    else []
  | none => []

/-- The references loop of `transformResponse`: skip degenerate 0-0
ranges, then record a `(range, material)` entry under the normalized
file-path key. -/
def refsFold (fileMap : List (Str × List Str)) :
    List ReferenceT → List (Str × List ReferencedFile) → List (Str × List ReferencedFile)
  | [], acc => acc
  | r :: rest, acc =>
    if r.range_start = 0 ∧ r.range_end = 0 then refsFold fileMap rest acc
    else
      let key := refKeyOf r.file_path
      let mat := refMaterial fileMap r key
      refsFold fileMap rest
        (addRefEntry acc key
          (ReferencedFile.mk (natStr r.range_start ++ "-".data ++ natStr r.range_end) mat))

/-- Build the conversation list: one `ConversationQuery` per query, in
order, failing as soon as the segment loop throws. -/
def convOf : List ApiQuery → Option (List ConversationQuery)
  | [] => some []
  | q :: qs =>
    match buildSegments q.response [] with
    | none => none
    | some segs =>
      match convOf qs with
      | none => none
      | some rest => some (ConversationQuery.mk q.user_query segs :: rest)

/-- Model of `transformResponse`.  `none` models an escaping runtime
exception: an empty queries array (the source unconditionally reads
`queries[0].repo_context_ids`), or a crash in the segment loop. -/
def transformResponse (input : InputResponse) : Option OutputResponse :=
  match rawQueries input.rawResponse with
  | [] => none
  | q0 :: qs =>
    match convOf (q0 :: qs) with
    | none => none
    | some conv =>
      let arts := fileArtifacts (q0 :: qs)
      some (OutputResponse.mk input.queryId (applySearchFilter conv)
        q0.repo_context_ids (refsFold arts.2 input.references []) arts.1)

/-!
Model of `MarkdownGenerator` (source file `dist/test.js`, compiled from
`src/parsers/markdown-generator.ts`).
-/

/-- Visibility configuration of `generateMarkdown` (`MarkdownOptions`).
Selected reference numbers are JavaScript numbers, modelled as `Int`.
Context ranges are a `Map` from file name to `{start, end}`. -/
structure MarkdownOptions where
  includeAnswer : Bool
  includeReferencesList : Bool
  referencesAll : Bool
  referencesNumbers : Option (List Int)
  contextAll : Bool
  contextFiles : Option (List Str)
  contextRanges : Option (List (Str × Int × Int))
deriving DecidableEq, Repr

/-- Push a string onto a deduplicating list when absent (the
`!uniqueReferences.includes(ref)` push, and `Set.prototype.add`). -/
def insertDedup (acc : List Str) (x : Str) : List Str :=
  if x ∈ acc then acc else acc ++ [x]

/-- Collect the distinct reference strings of a conversation in
first-seen order (the `uniqueReferences` loop of `formatReferences`
and `formatReferencedFiles`). -/
def collectUniqueReferences (conv : List ConversationQuery) : List Str :=
  conv.foldl
    (fun acc q =>
      q.answer_segments.foldl
        (fun acc s =>
          match s.reference with
          | some r => insertDedup acc r
          | none => acc)
        acc)
    []

/-- Longest run of backticks, as a fold over the characters (`cur` is
the current run length, `best` the best seen so far); this equals the
maximum length of the matches of the regex `/`+/g` in `getCodeFence`. -/
def backtickRunMax : Str → Nat → Nat → Nat
  | [], cur, best => max best cur
  | c :: rest, cur, best =>
    if c = backtickChar then backtickRunMax rest (cur + 1) best
    else backtickRunMax rest 0 (max best cur)

/-- Length of the code fence chosen for a content string: one more
backtick than the longest run inside the content, and at least 3. -/
def fenceLength (content : Str) : Nat :=
  max 3 (backtickRunMax content 0 0 + 1)

/-- Model of `getCodeFence`: the opening and closing fences (always
equal). -/
def getCodeFence (content : Str) : Str × Str :=
  let fence := List.replicate (fenceLength content) backtickChar
  (fence, fence)

/-- Does a string end with a newline? (`''.endsWith('\n')` is false). -/
def endsWithNewline (s : Str) : Bool :=
  match s.getLast? with
  | some c => c = '\n'
  | none => false

/-- Model of `formatQueryId`. -/
def formatQueryId (d : OutputResponse) : Str :=
  "# Query ID\n\n".data ++ d.query_id ++ "\n".data

/-- Answer rendering of one query's segments, threading the
reference-number map (`referenceMap`) and counter. -/
def segsAnswer : List AnswerSegment → List (Str × Nat) → Nat → Str × List (Str × Nat) × Nat
  | [], m, c => ([], m, c)
  | s :: ss, m, c =>
    match s.reference with
    | none =>
      let (r, m', c') := segsAnswer ss m c
      (s.text ++ r, m', c')
    | some ref =>
      let (n, m1, c1) :=
        match alookup m ref with
        | some n => (n, m, c)
        | none => (c, m ++ [(ref, c)], c + 1)
      let (r, m', c') := segsAnswer ss m1 c1
      (s.text ++ " [".data ++ natStr n ++ "]".data ++ r, m', c')

/-- Answer rendering across all conversation turns, inserting the
follow-up header before every turn but the first. -/
def convAnswer : List ConversationQuery → Bool → List (Str × Nat) → Nat → Str × List (Str × Nat) × Nat
  | [], _, m, c => ([], m, c)
  | q :: qs, isFirst, m, c =>
    let header : Str :=
      if isFirst then [] else "\n---\n\n**Follow-up:** ".data ++ q.user_query ++ "\n\n".data
    let (s1, m1, c1) := segsAnswer q.answer_segments m c
    let (srest, m2, c2) := convAnswer qs false m1 c1
    (header ++ s1 ++ srest, m2, c2)

/-- Model of `formatAnswer`. -/
def formatAnswer (d : OutputResponse) : Str :=
  "# Answer\n\n".data ++ (convAnswer d.conversation true [] 1).1 ++ "\n".data

/-- Numbered rendering of the unique reference list. -/
def numberRefs : List Str → Nat → Str
  | [], _ => []
  | r :: rs, i => "[".data ++ natStr i ++ "]: ".data ++ r ++ " \n".data ++ numberRefs rs (i + 1)

/-- Model of `formatReferences`. -/
def formatReferences (d : OutputResponse) : Str :=
  "# References\n\n".data ++ numberRefs (collectUniqueReferences d.conversation) 1

/-- Model of `formatRepoContextIds`. -/
def formatRepoContextIds (d : OutputResponse) : Str :=
  "# Repo Context IDs\n\n".data ++
    (d.repo_context_ids.map (fun i => "- ".data ++ i ++ "\n".data)).join

/-- Parse a reference string `org/repo: path:line-range` into the file
name `org/repo/path` and the range (`formatReferencedFiles` grouping
step); `none` when a colon is missing. -/
def parseRefString (ref : Str) : Option (Str × Str) :=
  match strIdxOfSub ref [':'] with
  | none => none
  | some firstColonIndex =>
    let repoPart := jsTrim (ref.take firstColonIndex)
    let rest := jsTrim (ref.drop (firstColonIndex + 1))
    match strLastIdxOfSub rest [':'] with
    | none => none
    | some lastColonIndex =>
      let pathPart := jsTrim (rest.take lastColonIndex)
      let lineRange := jsTrim (rest.drop (lastColonIndex + 1))
      some (repoPart ++ "/".data ++ pathPart, lineRange)

/-- Add a parsed (file, range) pair to the `fileRangesMap`
(a `Map` from file name to a `Set` of ranges). -/
def addRange (m : List (Str × List Str)) (f rng : Str) : List (Str × List Str) :=
  match m with
  | [] => [(f, [rng])]
  | (k, rs) :: rest =>
    if k = f then (k, if rng ∈ rs then rs else rs ++ [rng]) :: rest
    else (k, rs) :: addRange rest f rng

/-- Loop of the `fileRangesMap` construction. -/
def buildFileRangesGo : List Str → List (Str × List Str) → List (Str × List Str)
  | [], acc => acc
  | ref :: rest, acc =>
    buildFileRangesGo rest
      (match parseRefString ref with
       | some (f, rng) => addRange acc f rng
       | none => acc)

/-- Build the `fileRangesMap` from the included reference strings. -/
def buildFileRanges (incl : List Str) : List (Str × List Str) :=
  buildFileRangesGo incl []

/-- Is a file name a key of the ranges map? -/
def hasRangesKey (m : List (Str × List Str)) (f : Str) : Bool :=
  (alookup m f).isSome

/-- Is a specific range included for a file? -/
def rangeIncluded (m : List (Str × List Str)) (f rng : Str) : Bool :=
  match alookup m f with
  | some rs => rng ∈ rs
  | none => false

/-- Pick the reference selected by a 1-based number, when in bounds
(`refIndex >= 0 && refIndex < uniqueReferences.length`). -/
def selPick (uniq : List Str) (n : Int) : Option Str :=
  if 0 ≤ n - 1 ∧ n - 1 < (uniq.length : Int) then uniq.get? (n - 1).toNat
  else none

/-- The set of included references for an explicit number selection. -/
def buildIncluded (uniq : List Str) : List Int → List Str → List Str
  | [], acc => acc
  | n :: ns, acc =>
    buildIncluded uniq ns
      (match selPick uniq n with
       | some r => insertDedup acc r
       | none => acc)

/-- Render the snippet entries of one referenced file. -/
def renderRefEntries (f : Str) (frm : List (Str × List Str)) :
    List ReferencedFile → Str
  | [] => []
  | e :: es =>
    (if rangeIncluded frm f e.reference_range then
      "**[".data ++ e.reference_range ++ "]:**\n\n".data ++
        (getCodeFence e.reference_material).1 ++ "\n".data ++
        e.reference_material ++
        (if endsWithNewline e.reference_material then [] else "\n".data) ++
        (getCodeFence e.reference_material).2 ++ "\n\n".data
    else []) ++ renderRefEntries f frm es

/-- Render the body of the Referenced Files section: walk the
referenced-files map in insertion order, keeping files and ranges
present in the ranges map. -/
def renderRefFilesBody (frm : List (Str × List Str)) :
    List (Str × List ReferencedFile) → Str
  | [] => []
  | (fileName, entries) :: rest =>
    (if hasRangesKey frm fileName then
      "## ".data ++ fileName ++ "\n\n".data ++ renderRefEntries fileName frm entries
    else []) ++ renderRefFilesBody frm rest

/-- Model of `formatReferencedFiles`. -/
def formatReferencedFiles (d : OutputResponse) (includeAll : Bool)
    (selectedNumbers : Option (List Int)) : Str :=
  let uniq := collectUniqueReferences d.conversation
  let incl : List Str :=
    if includeAll then uniq.foldl insertDedup []
    else
      match selectedNumbers with
      | some sel => buildIncluded uniq sel []
      | none => []
  "# Referenced Files\n\n".data ++ renderRefFilesBody (buildFileRanges incl) d.referenced_files

/-- Model of `formatFullContext` (explicit context selection with
optional per-file ranges). -/
def formatFullContext (d : OutputResponse) (includeAll : Bool)
    (selectedFiles : Option (List Str)) (fileRanges : Option (List (Str × Int × Int))) : Str :=
  "# Full Context Files\n\n".data ++
    (d.full_context.map (fun context =>
      let fileName := context.file_name
      let shouldShow :=
        includeAll ||
          (match selectedFiles with
           | some fs => fileName ∈ fs
           | none => false)
      if shouldShow then
        let lines := splitOnChar '\n' context.text
        let totalLines := lines.length
        let (rangeStart, rangeEnd) : Int × Int :=
          match fileRanges with
          | some rs =>
            match alookup rs fileName with
            | some (s, e) => (s, min e ((totalLines : Int) - 1))
            | none => (0, (totalLines : Int) - 1)
          | none => (0, (totalLines : Int) - 1)
        let content := joinWith "\n".data (jsSliceInt lines rangeStart (rangeEnd + 1))
        "## ".data ++ fileName ++ " [".data ++ intStr rangeStart ++ "-".data ++
          intStr rangeEnd ++ "]\n\n".data ++
          (getCodeFence content).1 ++ "\n".data ++ content ++
          (if endsWithNewline content then [] else "\n".data) ++
          (getCodeFence content).2 ++ "\n\n".data
      else [])).join

/-- Model of `formatFullContextNamesOnly`. -/
def formatFullContextNamesOnly (d : OutputResponse) : Str :=
  "# Full Context Files\n\n".data ++
    (d.full_context.map (fun context =>
      "## ".data ++ context.file_name ++ " [0-".data ++
        natStr (splitOnChar '\n' context.text).length.pred ++ "]\n\n".data)).join

/-- Model of `generateMarkdown`: assemble the sections under the
visibility configuration, then trim. -/
def generateMarkdown (d : OutputResponse) (options : MarkdownOptions) : Str :=
  jsTrim
    (formatQueryId d ++ "\n".data ++
      (if options.includeAnswer then formatAnswer d ++ "\n".data else []) ++
      formatRepoContextIds d ++ "\n".data ++
      (if options.includeReferencesList then formatReferences d ++ "\n".data else []) ++
      (if options.referencesAll || options.referencesNumbers.isSome then
        formatReferencedFiles d options.referencesAll options.referencesNumbers ++ "\n".data
      else []) ++
      (if options.includeAnswer && options.includeReferencesList then
        formatFullContextNamesOnly d
      else if options.contextAll || options.contextFiles.isSome then
        formatFullContext d options.contextAll options.contextFiles options.contextRanges
      else []))

/-!
Model of the parameter validators (`src/utils/validation.ts`, source
file `unnamed/part_006`).  A validator that throws is modelled as a
function returning `some errorMessage`; `none` means no throw.  The
`typeof`-mismatch branches cannot arise in this typed model.
-/

/-- ASCII alphanumeric test, the character class `[a-zA-Z0-9]`. -/
def isAlnumAscii (c : Char) : Bool := c.isAlpha || c.isDigit

/-- The character class `[a-zA-Z0-9-]`. -/
def isAlnumHyphen (c : Char) : Bool := isAlnumAscii c || c = '-'

/-- The character class `[a-zA-Z0-9_-]` of the query-id pattern. -/
def isQueryIdChar (c : Char) : Bool := isAlnumAscii c || c = '-' || c = '_'

/-- Tail of the segment regex: `[a-zA-Z0-9-]*[a-zA-Z0-9]` on a
non-empty string. -/
def matchSegTail : Str → Bool
  | [] => false
  | [c] => isAlnumAscii c
  | c :: d :: rest => isAlnumHyphen c && matchSegTail (d :: rest)

/-- The anchored segment regex
`/^[a-zA-Z0-9]([a-zA-Z0-9-]*[a-zA-Z0-9])?$/` of `validateRepo`. -/
def validSegPattern : Str → Bool
  | [] => false
  | c :: rest => isAlnumAscii c && (rest.isEmpty || matchSegTail rest)

/-- Model of `validateRepo`. -/
def validateRepoErr (repo : Str) : Option Str :=
  if !truthyStr repo then some "Repository is required and must be a string".data
  else
    let trimmed := jsTrim repo
    if trimmed.isEmpty then some "Repository cannot be empty".data
    else
      match splitOnChar '/' trimmed with
      | [owner, repoName] =>
        if !truthyStr owner || !truthyStr repoName then
          some ("Invalid repository format. Both owner and repo name are required, got \"".data ++
            repo ++ "\"".data)
        else if !validSegPattern owner then
          some ("Invalid repository owner \"".data ++ owner ++
            "\". Must contain only alphanumeric characters and hyphens, and cannot start or end with a hyphen.".data)
        else if !validSegPattern repoName then
          some ("Invalid repository name \"".data ++ repoName ++
            "\". Must contain only alphanumeric characters and hyphens, and cannot start or end with a hyphen.".data)
        else none
      | _ =>
        some ("Invalid repository format. Expected \"owner/repo\", got \"".data ++ repo ++ "\"".data)

/-- Model of `validateQuestion`. -/
def validateQuestionErr (question : Str) : Option Str :=
  if !truthyStr question then some "Question is required and must be a string".data
  else
    let trimmed := jsTrim question
    if trimmed.isEmpty then some "Question cannot be empty".data
    else if 10000 < trimmed.length then
      some ("Question is too long (".data ++ natStr trimmed.length ++
        " characters). Maximum length is 10,000 characters.".data)
    else none

/-- The anchored query-id regex `/^[a-zA-Z0-9_-]+$/`. -/
def queryIdPattern (s : Str) : Bool := !s.isEmpty && s.all isQueryIdChar

/-- Model of `validateQueryId`. -/
def validateQueryIdErr (queryId : Str) : Option Str :=
  if !truthyStr queryId then some "Query ID is required and must be a string".data
  else
    let trimmed := jsTrim queryId
    if trimmed.isEmpty then some "Query ID cannot be empty".data
    else if !queryIdPattern trimmed then
      some ("Invalid query ID format \"".data ++ queryId ++
        "\". Must contain only alphanumeric characters, hyphens, and underscores.".data)
    else none

/-- Indexed loop of `validateReferencesNumbers` (integer-typing checks
cannot fail in this typed model; only positivity can). -/
def validateRefNumsGo : List Int → Nat → Option Str
  | [], _ => none
  | n :: ns, i =>
    if n < 1 then
      some ("Reference number at index ".data ++ natStr i ++ " must be positive, got ".data ++ intStr n)
    else validateRefNumsGo ns (i + 1)

/-- Model of `validateReferencesNumbers`. -/
def validateReferencesNumbersErr (l : List Int) : Option Str :=
  if l.isEmpty then some "References numbers array cannot be empty".data
  else validateRefNumsGo l 0

/-- Indexed loop of `validateContextFiles`. -/
def validateCtxFilesGo : List Str → Nat → Option Str
  | [], _ => none
  | f :: fs, i =>
    if (jsTrim f).isEmpty then
      some ("Context file at index ".data ++ natStr i ++ " cannot be empty".data)
    else validateCtxFilesGo fs (i + 1)

/-- Model of `validateContextFiles`. -/
def validateContextFilesErr (l : List Str) : Option Str :=
  if l.isEmpty then some "Context files array cannot be empty".data
  else validateCtxFilesGo l 0

/-- Entry loop of `validateContextRanges`. -/
def validateCtxRangesGo : List (Str × Int × Int) → Option Str
  | [] => none
  | (file, s, e) :: rest =>
    if (jsTrim file).isEmpty then some "File path in contextRanges cannot be empty".data
    else if s < 1 then
      some ("Start line for file \"".data ++ file ++ "\" must be positive, got ".data ++ intStr s)
    else if e < s then
      some ("End line (".data ++ intStr e ++ ") for file \"".data ++ file ++
        "\" must be greater than or equal to start line (".data ++ intStr s ++ ")".data)
    else validateCtxRangesGo rest

/-- Model of `validateContextRanges`. -/
def validateContextRangesErr (l : List (Str × Int × Int)) : Option Str :=
  if l.isEmpty then some "Context ranges object cannot be empty".data
  else validateCtxRangesGo l

/-- Model of `validateSaveToFile`. -/
def validateSaveToFileErr (s : Str) : Option Str :=
  let normalized := toLowerStr s
  if normalized = "save-only".data ∨ normalized = "save-and-show".data then none
  else
    some ("saveToFile must be either \"save-only\" or \"save-and-show\", got \"".data ++ s ++ "\"".data)

/-- Spec-side well-formedness of one repository segment, following the
claim's words: non-empty, only alphanumerics and hyphens, and not
starting or ending with a hyphen.  Written from the specification for
comparison against the source regex `validSegPattern`. -/
def segWellFormed : Str → Bool
  | [] => false
  | c :: rest =>
    (c :: rest).all isAlnumHyphen && decide (c ≠ '-') &&
      (match (c :: rest).getLast? with
       | some d => decide (d ≠ '-')
       | none => false)

/-- Spec-side well-formedness of a repository string, following the
claim's words: of the form `owner/repo` with both segments
well-formed.  Written from the specification for comparison against
`validateRepoErr`. -/
def repoWellFormed (s : Str) : Bool :=
  match splitOnChar '/' s with
  | [owner, repoName] => segWellFormed owner && segWellFormed repoName
  | _ => false

/-!
Model of the polling loop.  The automation engine
(`src/automation/deepwiki-automator.ts`) is not present under `src/`
of this repository snapshot, so the loop is modelled from §4.2 of the
specification.
-/

/-- Outcome of one status fetch: a not-found condition, any other
fetch failure, or a JSON payload carrying the queries array. -/
inductive FetchOutcome where
  | notFound
  | failure (msg : Str)
  | payload (queries : List ApiQuery)
deriving DecidableEq, Repr

/-- Result of a poll: terminal success with the query list and the
number of fetch attempts used, remote failure, fatal fetch error, or
schedule exhaustion with the last observed state. -/
inductive PollResult where
  | success (queries : List ApiQuery) (attempts : Nat)
  | queryFailed (msg : Str)
  | fatalErr (msg : Str)
  | pollTimeout (lastState : Str)
deriving DecidableEq, Repr

/-- Modelled from the spec: the polling loop of the Automation Engine
(its source, `src/automation/deepwiki-automator.ts`, is not under
`src/`).  Consume the schedule of offsets strictly in order; at each
offset fetch the status: a not-found fetch outcome is treated as "not
ready yet" and polling continues with the next offset; any other fetch
failure is fatal; on a payload, the last query's state classifies the
poll (`done`/`complete` terminal success, `error` state or a present
error field terminal failure, anything else continue).  An exhausted
schedule is a poll timeout carrying the last observed state.  Stall
tracking is diagnostic only and does not affect the result.
`attempts` counts fetches performed so far. -/
def pollLoop (fetch : Nat → FetchOutcome) : List Nat → Nat → Str → PollResult
  | [], _, lastState => .pollTimeout lastState
  | off :: rest, attempts, lastState =>
    match fetch off with
    | .notFound => pollLoop fetch rest (attempts + 1) lastState
    | .failure msg => .fatalErr msg
    | .payload queries =>
      match queries.getLast? with
      | none => pollLoop fetch rest (attempts + 1) lastState
      | some q =>
        if q.state = "done".data ∨ q.state = "complete".data then
          .success queries (attempts + 1)
        else if q.state = "error".data ∨ q.error.isSome then
          .queryFailed (q.error.getD q.state)
        else pollLoop fetch rest (attempts + 1) q.state

/-!
Model of the `wikiQuestionTool` handler (`src/tools/wiki-question.ts`).
The automation handlers (`handleGoDeeperRequest`,
`handleFollowUpRequest`, `handleNewQuestion`) drive the browser
automator, whose source is not under `src/`; their outcomes, the cache
contents, and the generated save path are supplied as an environment
of oracles.  Cache writes are side effects that do not influence the
returned value and are not modelled.
-/

/-- Tool-call environment: cache lookup keyed by (identifier, repo),
the outcomes of the three automation handlers, and the file path the
save step would report. -/
structure ToolEnv where
  cacheQuestion : Str → Str → Option OutputResponse
  goDeeperResult : Except Str (OutputResponse × Str)
  followUpResult : Except Str (OutputResponse × Str)
  newQuestionResult : Except Str (OutputResponse × Str)
  savedPath : Str

/-- Parameters of the tool call (`WikiQuestionToolParams`) after
defaulting, with absent optional fields as `none`. -/
structure WikiQuestionParams where
  repo : Str
  question : Option Str
  queryId : Option Str
  useDeepResearch : Bool
  goDeeper : Bool
  followUpQuestion : Option Str
  includeFullConversation : Bool
  includeAnswer : Bool
  includeReferencesList : Bool
  referencesAll : Bool
  referencesNumbers : Option (List Int)
  contextAll : Bool
  contextFiles : Option (List Str)
  contextRanges : Option (List (Str × Int × Int))
  saveToFile : Option Str
  saveLocation : Option Str
deriving Repr

/-- Outcome of a tool call: a returned markdown string (with a flag
recording whether browser automation ran), or a thrown error. -/
inductive ToolOutcome where
  | ok (markdown : Str) (automationUsed : Bool)
  | err (msg : Str)
deriving DecidableEq, Repr

/-- The parameter-validation prologue of `wikiQuestionTool`: the first
validator error, in source order.  String-valued parameters are only
validated when truthy; list/map-valued ones whenever present. -/
def validationError (p : WikiQuestionParams) : Option Str :=
  [validateRepoErr p.repo,
   p.question.bind (fun q => if truthyStr q then validateQuestionErr q else none),
   p.queryId.bind (fun i => if truthyStr i then validateQueryIdErr i else none),
   p.followUpQuestion.bind (fun f => if truthyStr f then validateQuestionErr f else none),
   p.referencesNumbers.bind validateReferencesNumbersErr,
   p.contextFiles.bind validateContextFilesErr,
   p.contextRanges.bind validateContextRangesErr,
   p.saveToFile.bind (fun s => if truthyStr s then validateSaveToFileErr s else none)].findSome? id

/-- The markdown options assembled from the call parameters. -/
def markdownOptionsOf (p : WikiQuestionParams) : MarkdownOptions :=
  ⟨p.includeAnswer, p.includeReferencesList, p.referencesAll, p.referencesNumbers,
    p.contextAll, p.contextFiles, p.contextRanges⟩

/-- Model of `filterConversationForFollowUp`. -/
def filterConversationForFollowUp (j : OutputResponse)
    (includeFullConversation : Bool) : OutputResponse :=
  if includeFullConversation then j
  else if 1 < j.conversation.length then
    match j.conversation.getLast? with
    | some lastQ => { j with conversation := [lastQ] }
    | none => j
  else j

/-- The user-facing cache-miss message of the query-id branch. -/
def noCacheMsg (qid : Str) : Str :=
  "No cached response found for query ID: ".data ++ qid

/-- The tail of `wikiQuestionTool` after a response has been resolved:
follow-up filtering, markdown generation, the deep-research banner,
and optional saving. -/
def toolFinish (env : ToolEnv) (p : WikiQuestionParams) (j : OutputResponse)
    (actualQueryId : Str) (automationUsed : Bool) : ToolOutcome :=
  let filtered :=
    if optTruthy p.followUpQuestion then
      filterConversationForFollowUp j p.includeFullConversation
    else j
  let md0 := generateMarkdown filtered (markdownOptionsOf p)
  let md :=
    if p.useDeepResearch && (optTruthy p.followUpQuestion || optTruthy p.question) then
      "**Deep Research Mode Used**\n\n".data ++ md0
    else md0
  match p.saveToFile with
  | some s =>
    if truthyStr s &&
        (toLowerStr s = "save-only".data || toLowerStr s = "save-and-show".data) then
      let qidF :=
        if truthyStr actualQueryId then actualQueryId
        else if truthyStr j.query_id then j.query_id
        else "unknown".data
      if toLowerStr s = "save-only".data then
        .ok ("Query ID: ".data ++ qidF ++ "\nOutput saved to: ".data ++ env.savedPath)
          automationUsed
      else
        .ok ("Query ID: ".data ++ qidF ++ "\nOutput saved to: ".data ++ env.savedPath ++
          "\n\n---\n\n".data ++ md) automationUsed
    else .ok md automationUsed
  | none => .ok md automationUsed

/-- Model of `wikiQuestionTool`: validation, routing to the go-deeper /
follow-up / cached-query / new-question branches, then the shared
finishing pipeline. -/
def wikiQuestionTool (env : ToolEnv) (p : WikiQuestionParams) : ToolOutcome :=
  match validationError p with
  | some e => .err e
  | none =>
    if p.goDeeper then
      if !optTruthy p.queryId then
        .err "Query ID is required for Go Deeper functionality".data
      else
        match env.goDeeperResult with
        | .error m => .err m
        | .ok (j, newQid) => toolFinish env p j newQid true
    else if optTruthy p.followUpQuestion then
      if !optTruthy p.queryId then
        .err "Query ID is required for follow-up questions".data
      else
        match env.followUpResult with
        | .error m => .err m
        | .ok (j, qid) => toolFinish env p j qid true
    else if optTruthy p.queryId then
      let qid := p.queryId.getD []
      match env.cacheQuestion qid p.repo with
      | none => .err (noCacheMsg qid)
      | some j => toolFinish env p j qid false
    else if !optTruthy p.question then
      .err "Question is required when queryId is not provided".data
    else
      let q := p.question.getD []
      let tempKey :=
        "question_".data ++ p.repo ++ "_".data ++ q ++ "_".data ++
          (if p.useDeepResearch then "deep".data else "regular".data)
      match env.cacheQuestion tempKey p.repo with
      | none =>
        match env.newQuestionResult with
        | .error m => .err m
        | .ok (j, qid) => toolFinish env p j qid true
      | some j => toolFinish env p j tempKey false

/-!
Claim-specific definitions: counting functions, spec-side comparison
definitions, and concrete inputs used by counterexamples and
witnesses.
-/

/-- Number of answer segments that carry a reference. -/
def refSegCount (segs : List AnswerSegment) : Nat :=
  (segs.filter (fun s => s.reference.isSome)).length

/-- Number of `reference`-typed fragments with reference-shaped data
and a non-degenerate (not 0-0) range, as counted by the claim. -/
def nonDegCitationCount (items : List ResponseItem) : Nat :=
  (items.filter
    (fun i =>
      decide (i.ty = "reference".data) &&
        (match i.data with
         | .refD r => !(decide (r.range_start = 0) && decide (r.range_end = 0))
         | _ => false))).length

/-- Number of `reference`-typed fragments with object-shaped data that
arrive while the pending chunk buffer is non-empty (`buf` mirrors the
buffer's non-emptiness through the same guards as `buildSegments`);
these are exactly the fragments that close a referenced segment. -/
def refTriggerCount : List ResponseItem → Bool → Nat
  | [], _ => 0
  | item :: rest, buf =>
    if item.ty = "chunk".data then
      match item.data with
      | .strD s => if truthyStr s then refTriggerCount rest true else refTriggerCount rest buf
      | _ => refTriggerCount rest buf
    else if item.ty = "reference".data then
      match item.data with
      | .refD _ => if buf then 1 + refTriggerCount rest false else refTriggerCount rest buf
      | .statsD _ _ => if buf then 1 + refTriggerCount rest false else refTriggerCount rest buf
      | _ => refTriggerCount rest buf
    else refTriggerCount rest buf

/-- Every answer segment except possibly the last carries a reference. -/
def unrefOnlyTrailing (segs : List AnswerSegment) : Bool :=
  segs.dropLast.all (fun s => s.reference.isSome)

/-- Per-turn segment-counting property of the amended claim C1. -/
def c1Pair (q : ApiQuery) (cq : ConversationQuery) : Prop :=
  refSegCount cq.answer_segments = refTriggerCount q.response false ∧
    unrefOnlyTrailing cq.answer_segments = true

/-- Fragment sequence refuting C1 as stated: one chunk followed by a
citation with the degenerate 0-0 range. -/
def c1CexItems : List ResponseItem :=
  [⟨"chunk".data, .strD "a".data⟩, ⟨"reference".data, .refD ⟨"f".data, 0, 0⟩⟩]

/-- Input wrapping `c1CexItems` into a single-query response. -/
def c1CexInput : InputResponse :=
  ⟨"q".data, [], .one ⟨"Q".data, [], c1CexItems, none, "done".data⟩⟩

/-- Witness input for the amended C1: chunk, proper citation, chunk. -/
def c1WitInput : InputResponse :=
  ⟨"qw".data, [],
   .one ⟨"QW".data, [],
     [⟨"chunk".data, .strD "x".data⟩,
      ⟨"reference".data, .refD ⟨"f".data, 3, 4⟩⟩,
      ⟨"chunk".data, .strD "y".data⟩],
     none, "done".data⟩⟩

/-- Output of `transformResponse` on `c1WitInput`. -/
def c1WitOut : OutputResponse :=
  ⟨"qw".data,
   [⟨"QW".data, [⟨"x".data, some "f:3-4".data⟩, ⟨"y".data, none⟩]⟩],
   [], [], []⟩

/-- A 20-line file capture (lines `L0` .. `L19`). -/
def content20 : Str :=
  "L0\nL1\nL2\nL3\nL4\nL5\nL6\nL7\nL8\nL9\nL10\nL11\nL12\nL13\nL14\nL15\nL16\nL17\nL18\nL19".data

/-- The fragment sequence of the C2 example, together with the capture
for `a/b/x.py`. -/
def c2Items : List ResponseItem :=
  [⟨"chunk".data, .strD "Looking at ".data⟩,
   ⟨"reference".data, .refD ⟨"a/b/x.py".data, 10, 12⟩⟩,
   ⟨"chunk".data, .strD " next.".data⟩,
   ⟨"file_contents".data, .arrD "a/b".data "x.py".data content20⟩]

/-- The C2 example input: the fragment sequence plus the matching
top-level reference entry. -/
def c2Input : InputResponse :=
  ⟨"q1".data, [⟨"a/b/x.py".data, 10, 12⟩],
   .one ⟨"Q?".data, ["ctx1".data], c2Items, none, "done".data⟩⟩

/-- The output the code actually produces on `c2Input`: two answer
segments as the claim states, but the referenced material spans the
four lines `L9` .. `L12`. -/
def c2Expected : OutputResponse :=
  ⟨"q1".data,
   [⟨"Q?".data,
     [⟨"Looking at ".data, some "a/b: x.py:10-12".data⟩, ⟨" next.".data, none⟩]⟩],
   ["ctx1".data],
   [("a/b/x.py".data, [⟨"10-12".data, "L9\nL10\nL11\nL12".data⟩])],
   [⟨"a/b/x.py".data, content20⟩]⟩

/-- Is a reference range non-degenerate (not 0-0)? -/
def nonDegRef (r : ReferenceT) : Bool :=
  !(decide (r.range_start = 0) && decide (r.range_end = 0))

/-- A query whose state is `done`, for the C4 polling scenario. -/
def pollDoneQuery : ApiQuery := ⟨[], [], [], none, "done".data⟩

/-- Fetch oracle of the C4 witness: 404 at 10s and 15s, done at 20s. -/
def c4Fetch : Nat → FetchOutcome :=
  fun t => if t = 20 then .payload [pollDoneQuery] else .notFound

/-- All reference strings of a conversation, in reading order. -/
def flatReferences (conv : List ConversationQuery) : List Str :=
  (conv.map (fun q => q.answer_segments.filterMap (fun s => s.reference))).join

/-- Spec-side first-seen deduplication, following the spec's words:
keep the first appearance of each distinct string, dropping later
duplicates.  Written from the specification for comparison against the
renderer's `collectUniqueReferences`. -/
def firstSeenDedup : List Str → List Str
  | [] => []
  | x :: xs => x :: firstSeenDedup (xs.filter (fun y => decide (y ≠ x)))
termination_by l => l.length
decreasing_by
  simp only [List.length_cons]
  exact Nat.lt_succ_of_le (List.length_filter_le _ _)

/-- Is the 1-based selection number `n` within the bounds of the
deduplicated reference list of `d`? -/
def selInBounds (d : OutputResponse) (n : Int) : Bool :=
  (selPick (collectUniqueReferences d.conversation) n).isSome

/-- Witness document for the renderer claims: one turn with two
distinct references resolving into the referenced-files map. -/
def c5WitDoc : OutputResponse :=
  ⟨"q1".data,
   [⟨"Q?".data,
     [⟨"t1 ".data, some "a/b: x.py:10-12".data⟩,
      ⟨"t2 ".data, some "a/b: y.py:1-2".data⟩,
      ⟨"t3".data, none⟩]⟩],
   ["ctx".data],
   [("a/b/x.py".data, [⟨"10-12".data, "m1".data⟩]),
    ("a/b/y.py".data, [⟨"1-2".data, "m2".data⟩])],
   [⟨"a/b/x.py".data, content20⟩]⟩

/-- Witness options base for the renderer claims. -/
def c5WitOpts : MarkdownOptions :=
  ⟨true, true, false, none, false, none, none⟩

/-- Does `s` contain a run of `n` consecutive backticks? -/
def containsRun (s : Str) (n : Nat) : Prop :=
  ∃ pre post, s = pre ++ List.replicate n backtickChar ++ post

/-- Witness content for C6, containing a run of two backticks. -/
def c6Content : Str := ['a', backtickChar, backtickChar, 'b']

/-- A `reference`-typed item whose object datum has the stats shape
(no `file_path` string): processing it with a non-empty chunk buffer
makes the JavaScript original throw. -/
def badRefItem (i : ResponseItem) : Bool :=
  decide (i.ty = "reference".data) &&
    (match i.data with
     | .statsD _ _ => true
     | _ => false)

/-- The response items actually consumed by `transformResponse`:
truthy string chunks, object-shaped references, and array-shaped file
captures.  Everything else is skipped by the guards. -/
def keepItem (i : ResponseItem) : Bool :=
  (decide (i.ty = "chunk".data) &&
    (match i.data with
     | .strD s => truthyStr s
     | _ => false)) ||
  (decide (i.ty = "reference".data) &&
    (match i.data with
     | .refD _ => true
     | .statsD _ _ => true
     | _ => false)) ||
  (decide (i.ty = "file_contents".data) &&
    (match i.data with
     | .arrD _ _ _ => true
     | _ => false))

/-- Drop the guard-rejected items of one query's response. -/
def filterQueryItems (q : ApiQuery) : ApiQuery :=
  { q with response := q.response.filter keepItem }

/-- Drop the guard-rejected items across a raw response. -/
def filterRawItems : RawResponse → RawResponse
  | .one q => .one (filterQueryItems q)
  | .many qs => .many (qs.map filterQueryItems)

/-- Drop the guard-rejected items across a whole input. -/
def filterInputItems (input : InputResponse) : InputResponse :=
  { input with rawResponse := filterRawItems input.rawResponse }

/-- Counterexample input for C10: a chunk followed by a
`reference`-typed item carrying stats-shaped object data. -/
def c10CexInput : InputResponse :=
  ⟨"q".data, [],
   .one ⟨"Q".data, [],
     [⟨"chunk".data, .strD "a".data⟩, ⟨"reference".data, .statsD "k".data 1⟩],
     none, "done".data⟩⟩

/-- Witness input for the amended C10, with several guard-rejected
items interleaved. -/
def c10WitInput : InputResponse :=
  ⟨"q".data, [],
   .one ⟨"Q".data, [],
     [⟨"chunk".data, .strD "a".data⟩,
      ⟨"chunk".data, .refD ⟨"z".data, 1, 2⟩⟩,
      ⟨"chunk".data, .strD []⟩,
      ⟨"reference".data, .strD "nope".data⟩,
      ⟨"reference".data, .arrD "x".data "y".data "z".data⟩,
      ⟨"reference".data, .refD ⟨"a/b/c".data, 1, 2⟩⟩,
      ⟨"bogus".data, .strD "zz".data⟩,
      ⟨"stats".data, .statsD "k".data 3⟩],
     none, "done".data⟩⟩

/-- Environment for the C9 counterexample: an empty cache. -/
def c9CexEnv : ToolEnv :=
  ⟨fun _ _ => none, .error "e".data, .error "e".data, .error "e".data, "/p".data⟩

/-- Parameters for the C9 counterexample: a query id is supplied,
neither `goDeeper` nor `followUpQuestion` is set, but the repository
string is malformed, so the call fails with the repository-validation
error instead of the cache-miss error. -/
def c9CexParams : WikiQuestionParams :=
  ⟨"bad repo".data, none, some "abc".data, false, false, none, false, true, true,
   false, none, false, none, none, none, none⟩

/-- Valid parameters for the C9 witness. -/
def c9WitParams : WikiQuestionParams :=
  ⟨"o/r".data, none, some "abc".data, false, false, none, false, true, true,
   false, none, false, none, none, none, none⟩

/-- Environment for the C9 witness: again an empty cache. -/
def c9WitEnv : ToolEnv :=
  ⟨fun _ _ => none, .error "e".data, .error "e".data, .error "e".data, "/p".data⟩

/-!
Theorems.
-/

/-- C2, counterexample: on the example input, the referenced-files
entry for `a/b/x.py` holds the four lines `L9`..`L12` of the capture
(0-based lines 9..12), not the three lines 9..11 the claim states. -/
theorem c2_counterexample :
    (transformResponse c2Input).map (fun o => alookup o.referenced_files "a/b/x.py".data) =
      some (some [ReferencedFile.mk "10-12".data "L9\nL10\nL11\nL12".data]) ∧
    ("L9\nL10\nL11\nL12".data : Str) ≠ "L9\nL10\nL11".data := by
  exact ⟨by decide, by decide⟩

/-- C2, amended: on the fragment sequence `[chunk "Looking at ",
reference a/b/x.py 10-12, chunk " next."]` with a 20-line capture for
`a/b/x.py`, `transformResponse` produces exactly the two answer
segments `{"Looking at ", a/b: x.py:10-12}` and `{" next.", none}`,
and a referenced-files entry for `a/b/x.py` whose extracted text is
lines 9..12 (0-based) of the capture, i.e. four lines. -/
theorem c2_theorem : transformResponse c2Input = some c2Expected := by decide

/-- C1, counterexample: on `[chunk "a", reference range 0-0]` the code
produces one referenced answer segment, while the sequence has zero
citation fragments with a non-degenerate range, so the claimed
equality fails. -/
theorem c1_counterexample :
    ¬ ((transformResponse c1CexInput).map
        (fun o => o.conversation.map (fun cq => refSegCount cq.answer_segments)) =
      some [nonDegCitationCount c1CexItems]) := by decide

/-- C4: a not-found status fetch is treated as not ready yet and the
loop continues with the next schedule offset; over the regular
schedule `[10, 15, 20]` with 404s at 10s and 15s and a `done` payload
at 20s, the poll succeeds using exactly 3 fetch attempts
(spec-modelled, `pollLoop`). -/
theorem c4_theorem (fetch : Nat → FetchOutcome)
    (h10 : fetch 10 = .notFound) (h15 : fetch 15 = .notFound)
    (h20 : fetch 20 = .payload [pollDoneQuery]) :
    pollLoop fetch [10, 15, 20] 0 [] = .success [pollDoneQuery] 3 := by
  simp [pollLoop, h10, h15, h20, pollDoneQuery]

/-- C4, witness at the concrete fetch oracle. -/
theorem c4_witness : pollLoop c4Fetch [10, 15, 20] 0 [] = .success [pollDoneQuery] 3 :=
  c4_theorem c4Fetch (by decide) (by decide) (by decide)

/-- C8, counterexample: `validateRepo` does not throw on `" a/b "`
(it validates the trimmed string), yet the raw string is not of the
form `owner/repo`, so the claimed "throws iff malformed" equivalence
fails on the raw repository string. -/
theorem c8_counterexample :
    ¬ (((validateRepoErr " a/b ".data).isSome = true) ↔
        (repoWellFormed " a/b ".data = false)) := by decide

/-- C9, counterexample: with an empty cache and a malformed repository
parameter, a call that supplies a query id (and neither `goDeeper` nor
`followUpQuestion`) fails with the repository-validation error, not
with the cache-miss error, although the cache lookup returns nothing -
so the claimed equivalence fails as stated. -/
theorem c9_counterexample :
    ¬ ((wikiQuestionTool c9CexEnv c9CexParams = .err (noCacheMsg "abc".data)) ↔
        c9CexEnv.cacheQuestion "abc".data c9CexParams.repo = none) := by decide

/-- C10, counterexample: an input with one query whose fragments are a
chunk followed by a `reference`-typed item with stats-shaped object
data makes `transformResponse` throw (the code reads `file_path` of
the object and calls `.includes` on `undefined`), refuting the claimed
error-free return. -/
theorem c10_counterexample :
    transformResponse c10CexInput = none ∧ rawQueries c10CexInput.rawResponse ≠ [] := by
  exact ⟨by decide, by decide⟩

/-- Degenerate references are skipped by the references loop, so
filtering them away does not change the fold. -/
theorem refsFold_filter_nonDeg (fm : List (Str × List Str)) :
    ∀ (refs : List ReferenceT) (acc : List (Str × List ReferencedFile)),
      refsFold fm refs acc = refsFold fm (refs.filter nonDegRef) acc := by
  intro refs
  induction refs with
  | nil => intro acc; rfl
  | cons r rest ih =>
    intro acc
    by_cases h : r.range_start = 0 ∧ r.range_end = 0
    · have hb : nonDegRef r = false := by simp [nonDegRef, h.1, h.2]
      simp [refsFold, h, List.filter_cons, hb, ih]
    · have hb : nonDegRef r = true := by
        simp [nonDegRef]
        omega
      simp [refsFold, h, List.filter_cons, hb, ih]

/-- C3: removing every 0-0 reference from the input before
`transformResponse` leaves the output unchanged - in particular no 0-0
reference contributes a key or an entry to the referenced-files map,
whether or not a matching capture exists. -/
theorem c3_theorem (input : InputResponse) :
    transformResponse input =
      transformResponse { input with references := input.references.filter nonDegRef } := by
  unfold transformResponse
  cases h : rawQueries input.rawResponse with
  | nil => rfl
  | cons q0 qs =>
    cases hc : convOf (q0 :: qs) with
    | none => simp [hc]
    | some conv =>
      have hrw : refsFold (fileArtifacts (q0 :: qs)).2 input.references [] =
          refsFold (fileArtifacts (q0 :: qs)).2 (input.references.filter nonDegRef) [] :=
        refsFold_filter_nonDeg _ _ _
      simp [hc, hrw]

/-- Out-of-bounds selection numbers never contribute to the included
set. -/
theorem buildIncluded_filter_inb (uniq : List Str) :
    ∀ (sel : List Int) (acc : List Str),
      buildIncluded uniq sel acc =
        buildIncluded uniq (sel.filter (fun n => (selPick uniq n).isSome)) acc := by
  intro sel
  induction sel with
  | nil => intro acc; rfl
  | cons n ns ih =>
    intro acc
    cases h : selPick uniq n with
    | none => simp [buildIncluded, List.filter_cons, h, ih]
    | some r => simp [buildIncluded, List.filter_cons, h, ih]

/-- C7: selection numbers whose 1-based position falls outside the
deduplicated reference list contribute nothing and raise no error: the
rendered markdown equals the one for the selection with out-of-bounds
numbers removed. -/
theorem c7_theorem (d : OutputResponse) (opts : MarkdownOptions) (sel : List Int) :
    generateMarkdown d { opts with referencesNumbers := some sel } =
      generateMarkdown d { opts with referencesNumbers := some (sel.filter (selInBounds d)) } := by
  have hsel : sel.filter (selInBounds d) =
      sel.filter (fun n => (selPick (collectUniqueReferences d.conversation) n).isSome) := rfl
  have h1 : formatReferencedFiles d opts.referencesAll (some sel) =
      formatReferencedFiles d opts.referencesAll (some (sel.filter (selInBounds d))) := by
    unfold formatReferencedFiles
    cases opts.referencesAll <;> simp [hsel, buildIncluded_filter_inb]
  simp [generateMarkdown, h1]

/-- The segment loop succeeds whenever no `reference`-typed item
carries stats-shaped object data. -/
theorem buildSegments_isSome (items : List ResponseItem) :
    ∀ chunks, (∀ i ∈ items, badRefItem i = false) →
      (buildSegments items chunks).isSome = true := by
  induction items with
  | nil => intro chunks _; simp [buildSegments]
  | cons item rest ih =>
    intro chunks h
    have hrest : ∀ i ∈ rest, badRefItem i = false := fun i hi => h i (List.mem_cons_of_mem _ hi)
    have hhead := h item (List.mem_cons_self _ _)
    by_cases h1 : item.ty = "chunk".data
    · cases hd : item.data with
      | strD s =>
        by_cases hs : truthyStr s = true
        · simp [buildSegments, h1, hd, hs, ih _ hrest]
        · simp [buildSegments, h1, hd, hs, ih _ hrest]
      | refD r => simp [buildSegments, h1, hd, ih _ hrest]
      | statsD k v => simp [buildSegments, h1, hd, ih _ hrest]
      | arrD a b c => simp [buildSegments, h1, hd, ih _ hrest]
      | noneD => simp [buildSegments, h1, hd, ih _ hrest]
    · by_cases h2 : item.ty = "reference".data
      · cases hd : item.data with
        | strD s => simp [buildSegments, h1, h2, hd, ih _ hrest]
        | refD r =>
          by_cases hc : chunks.isEmpty = true
          · simp [buildSegments, h1, h2, hd, hc, ih _ hrest]
          · have := ih [] hrest
            simp [buildSegments, h1, h2, hd, hc]
            cases hb : buildSegments rest [] with
            | none => rw [hb] at this; simp at this
            | some segs => simp
        | statsD k v =>
          exfalso
          rw [badRefItem, hd] at hhead
          simp [h2] at hhead
        | arrD a b c => simp [buildSegments, h1, h2, hd, ih _ hrest]
        | noneD => simp [buildSegments, h1, h2, hd, ih _ hrest]
      · simp [buildSegments, h1, h2, ih _ hrest]

/-- Guard-rejected items are identity steps of the segment loop, so
filtering them away does not change it. -/
theorem buildSegments_filter (items : List ResponseItem) :
    ∀ chunks, buildSegments items chunks = buildSegments (items.filter keepItem) chunks := by
  induction items with
  | nil => intro chunks; rfl
  | cons item rest ih =>
    intro chunks
    by_cases h1 : item.ty = "chunk".data
    · cases hd : item.data with
      | strD s =>
        by_cases hs : truthyStr s = true
        · have hk : keepItem item = true := by simp [keepItem, h1, hd, hs]
          simp [buildSegments, h1, hd, hs, List.filter_cons, hk, ih]
        · have hk : keepItem item = false := by
            simp [keepItem, hd, hs]
          simp [buildSegments, h1, hd, hs, List.filter_cons, hk, ih]
      | refD r =>
        have hk : keepItem item = false := by
          simp [keepItem, hd]
          intro href
          rw [h1] at href
          exact absurd href (by decide)
        simp [buildSegments, h1, hd, List.filter_cons, hk, ih]
      | statsD k v =>
        have hk : keepItem item = false := by
          simp [keepItem, hd]
          intro href
          rw [h1] at href
          exact absurd href (by decide)
        simp [buildSegments, h1, hd, List.filter_cons, hk, ih]
      | arrD a b c =>
        have hk : keepItem item = false := by
          simp [keepItem, hd]
          intro hfc
          rw [h1] at hfc
          exact absurd hfc (by decide)
        simp [buildSegments, h1, hd, List.filter_cons, hk, ih]
      | noneD =>
        have hk : keepItem item = false := by simp [keepItem, hd]
        simp [buildSegments, h1, hd, List.filter_cons, hk, ih]
    · by_cases h2 : item.ty = "reference".data
      · cases hd : item.data with
        | strD s =>
          have hk : keepItem item = false := by
            simp [keepItem, hd, h2]
          simp [buildSegments, h1, h2, hd, List.filter_cons, hk, ih]
        | refD r =>
          have hk : keepItem item = true := by simp [keepItem, h2, hd]
          by_cases hc : chunks.isEmpty = true
          · simp [buildSegments, h1, h2, hd, hc, List.filter_cons, hk, ih]
          · simp [buildSegments, h1, h2, hd, hc, List.filter_cons, hk, ih]
        | statsD k v =>
          have hk : keepItem item = true := by simp [keepItem, h2, hd]
          by_cases hc : chunks.isEmpty = true
          · simp [buildSegments, h1, h2, hd, hc, List.filter_cons, hk, ih]
          · simp [buildSegments, h1, h2, hd, hc, List.filter_cons, hk]
        | arrD a b c =>
          have hk : keepItem item = false := by
            simp [keepItem, hd, h2]
          simp [buildSegments, h1, h2, hd, List.filter_cons, hk, ih]
        | noneD =>
          have hk : keepItem item = false := by simp [keepItem, hd]
          simp [buildSegments, h1, h2, hd, List.filter_cons, hk, ih]
      · by_cases h3 : item.ty = "file_contents".data
        · cases hd : item.data with
          | arrD a b c =>
            have hk : keepItem item = true := by simp [keepItem, h3, hd]
            simp [buildSegments, h1, h2, List.filter_cons, hk, ih]
          | strD s =>
            have hk : keepItem item = false := by
              simp [keepItem, hd, h1]
            simp [buildSegments, h1, h2, List.filter_cons, hk, ih]
          | refD r =>
            have hk : keepItem item = false := by
              simp [keepItem, hd, h2]
            simp [buildSegments, h1, h2, List.filter_cons, hk, ih]
          | statsD k v =>
            have hk : keepItem item = false := by
              simp [keepItem, hd, h2]
            simp [buildSegments, h1, h2, List.filter_cons, hk, ih]
          | noneD =>
            have hk : keepItem item = false := by simp [keepItem, hd]
            simp [buildSegments, h1, h2, List.filter_cons, hk, ih]
        · have hk : keepItem item = false := by
            cases hd : item.data <;> simp [keepItem, hd, h1, h2, h3]
          simp [buildSegments, h1, h2, List.filter_cons, hk, ih]

/-- The conversation builder succeeds whenever no query holds a
stats-shaped `reference` item. -/
theorem convOf_isSome (queries : List ApiQuery)
    (h : ∀ q ∈ queries, ∀ i ∈ q.response, badRefItem i = false) :
    (convOf queries).isSome = true := by
  induction queries with
  | nil => simp [convOf]
  | cons q qs ih =>
    have hq := h q (List.mem_cons_self _ _)
    have hqs : ∀ q' ∈ qs, ∀ i ∈ q'.response, badRefItem i = false :=
      fun q' hq' => h q' (List.mem_cons_of_mem _ hq')
    have h1 := buildSegments_isSome q.response [] hq
    have h2 := ih hqs
    cases hb : buildSegments q.response [] with
    | none => rw [hb] at h1; simp at h1
    | some segs =>
      cases hc : convOf qs with
      | none => rw [hc] at h2; simp at h2
      | some conv => simp [convOf, hb, hc]

/-- Filtering guard-rejected items per query does not change the
conversation builder. -/
theorem convOf_filter (queries : List ApiQuery) :
    convOf (queries.map filterQueryItems) = convOf queries := by
  induction queries with
  | nil => rfl
  | cons q qs ih =>
    simp only [List.map_cons, convOf, filterQueryItems, ← buildSegments_filter, ih]

/-- A guard-rejected item is an identity step of the file-contents
scan. -/
theorem fileStep_id (acc : List FullContextItem × List (Str × List Str))
    (i : ResponseItem) (h : keepItem i = false) : fileStep acc i = acc := by
  by_cases h3 : i.ty = "file_contents".data
  · cases hd : i.data with
    | arrD a b c => rw [keepItem, hd] at h; simp [h3] at h
    | strD s => simp [fileStep, h3, hd]
    | refD r => simp [fileStep, h3, hd]
    | statsD k v => simp [fileStep, h3, hd]
    | noneD => simp [fileStep, h3, hd]
  · simp [fileStep, h3]

/-- The file-contents scan of one query ignores guard-rejected items. -/
theorem foldl_fileStep_filter (items : List ResponseItem) :
    ∀ acc, items.foldl fileStep acc = (items.filter keepItem).foldl fileStep acc := by
  induction items with
  | nil => intro acc; rfl
  | cons i rest ih =>
    intro acc
    cases hk : keepItem i with
    | true => simp [List.filter_cons, hk, List.foldl_cons, ih]
    | false => simp [List.filter_cons, hk, List.foldl_cons, ih, fileStep_id _ _ hk]

/-- Accumulator-generalized form of `fileArtifacts_filter`. -/
theorem fileArtifacts_filter_go (queries : List ApiQuery) :
    ∀ acc, (queries.map filterQueryItems).foldl (fun acc q => q.response.foldl fileStep acc) acc =
      queries.foldl (fun acc q => q.response.foldl fileStep acc) acc := by
  induction queries with
  | nil => intro acc; rfl
  | cons q qs ih =>
    intro acc
    simp only [List.map_cons, List.foldl_cons]
    rw [show (filterQueryItems q).response = q.response.filter keepItem from rfl]
    rw [← foldl_fileStep_filter]
    exact ih _

/-- Filtering guard-rejected items does not change the file
artifacts. -/
theorem fileArtifacts_filter (queries : List ApiQuery) :
    fileArtifacts (queries.map filterQueryItems) = fileArtifacts queries :=
  fileArtifacts_filter_go queries ([], [])

/-- The queries of a filtered raw response are the filtered queries. -/
theorem rawQueries_filterRawItems (raw : RawResponse) :
    rawQueries (filterRawItems raw) = (rawQueries raw).map filterQueryItems := by
  cases raw <;> simp [rawQueries, filterRawItems]

/-- C10, amended: `transformResponse` returns without error on every
input whose raw response holds at least one query and in which no
`reference`-typed item carries stats-shaped object data; the
guard-rejected items (wrong type tag, chunk with non-string or falsy
data, reference with string/array/absent data, file capture with
non-array data) contribute nothing: filtering them out of every
query's response leaves the output unchanged.  (A `reference` item
whose object datum lacks the reference fields is not skipped but makes
the function throw, as `c10_counterexample` shows.) -/
theorem c10_theorem (input : InputResponse)
    (h1 : rawQueries input.rawResponse ≠ [])
    (h2 : ∀ q ∈ rawQueries input.rawResponse, ∀ i ∈ q.response, badRefItem i = false) :
    (transformResponse input).isSome = true ∧
      transformResponse input = transformResponse (filterInputItems input) := by
  constructor
  · unfold transformResponse
    cases hr : rawQueries input.rawResponse with
    | nil => exact absurd hr h1
    | cons q0 qs =>
      rw [hr] at h2
      have hc := convOf_isSome (q0 :: qs) h2
      cases hco : convOf (q0 :: qs) with
      | none => rw [hco] at hc; simp at hc
      | some conv => simp [hco]
  · unfold transformResponse
    rw [show (filterInputItems input).rawResponse = filterRawItems input.rawResponse from rfl]
    rw [rawQueries_filterRawItems]
    cases hr : rawQueries input.rawResponse with
    | nil => rfl
    | cons q0 qs =>
      simp only [List.map_cons]
      rw [show filterQueryItems q0 :: List.map filterQueryItems qs =
        List.map filterQueryItems (q0 :: qs) from rfl]
      rw [convOf_filter (q0 :: qs)]
      cases hco : convOf (q0 :: qs) with
      | none => rfl
      | some conv =>
        rw [show List.map filterQueryItems (q0 :: qs) =
          filterQueryItems q0 :: List.map filterQueryItems qs from rfl]
        have hfa : fileArtifacts (filterQueryItems q0 :: List.map filterQueryItems qs) =
            fileArtifacts (q0 :: qs) := fileArtifacts_filter (q0 :: qs)
        rw [hfa]
        simp [filterInputItems, filterQueryItems]

/-- C10, witness: a concrete input with several guard-rejected items,
at which the amended theorem applies. -/
theorem c10_witness :
    (transformResponse c10WitInput).isSome = true ∧
      transformResponse c10WitInput = transformResponse (filterInputItems c10WitInput) :=
  c10_theorem c10WitInput (by decide) (by decide)

/-- Unfolding of the referenced-segment count. -/
theorem refSegCount_cons (s : AnswerSegment) (segs : List AnswerSegment) :
    refSegCount (s :: segs) = (if s.reference.isSome then 1 else 0) + refSegCount segs := by
  cases h : s.reference.isSome <;> simp [refSegCount, List.filter_cons, h, Nat.add_comm]

/-- Segment-loop invariant: on success, the referenced-segment count
equals the number of buffer-closing reference fragments, and only the
final segment can lack a reference. -/
theorem buildSegments_count (items : List ResponseItem) :
    ∀ chunks segs, buildSegments items chunks = some segs →
      refSegCount segs = refTriggerCount items (!chunks.isEmpty) ∧
        unrefOnlyTrailing segs = true := by
  induction items with
  | nil =>
    intro chunks segs h
    rw [buildSegments] at h
    by_cases hc : chunks.isEmpty = true
    · rw [if_pos hc] at h
      cases h
      simp [refSegCount, refTriggerCount, unrefOnlyTrailing, hc]
    · rw [if_neg hc] at h
      cases h
      simp [refSegCount_cons, refSegCount, refTriggerCount, unrefOnlyTrailing,
        Bool.eq_false_iff.mpr hc]
  | cons item rest ih =>
    intro chunks segs h
    by_cases h1 : item.ty = "chunk".data
    · cases hd : item.data with
      | strD s =>
        by_cases hs : truthyStr s = true
        · simp only [buildSegments, h1, hd, hs, if_true, eq_self_iff_true] at h
          have := ih _ _ h
          have hne : (chunks ++ [s]).isEmpty = false := by
            cases chunks <;> simp [List.isEmpty]
          rw [hne] at this
          simpa [refTriggerCount, h1, hd, hs] using this
        · simp [buildSegments, h1, hd, hs] at h
          have := ih _ _ h
          simpa [refTriggerCount, h1, hd, hs] using this
      | refD r =>
        simp [buildSegments, h1, hd] at h
        have := ih _ _ h
        simpa [refTriggerCount, h1, hd] using this
      | statsD k v =>
        simp [buildSegments, h1, hd] at h
        have := ih _ _ h
        simpa [refTriggerCount, h1, hd] using this
      | arrD a b c =>
        simp [buildSegments, h1, hd] at h
        have := ih _ _ h
        simpa [refTriggerCount, h1, hd] using this
      | noneD =>
        simp [buildSegments, h1, hd] at h
        have := ih _ _ h
        simpa [refTriggerCount, h1, hd] using this
    · by_cases h2 : item.ty = "reference".data
      · cases hd : item.data with
        | refD r =>
          by_cases hc : chunks.isEmpty = true
          · simp [buildSegments, h1, h2, hd, hc] at h
            have := ih _ _ h
            simpa [refTriggerCount, h1, h2, hd, hc] using this
          · simp only [buildSegments, h1, h2, hd, hc, if_false, if_true, eq_self_iff_true] at h
            cases hb : buildSegments rest [] with
            | none => rw [hb] at h; simp at h
            | some segs2 =>
              rw [hb] at h
              obtain ⟨ih1, ih2⟩ := ih [] segs2 hb
              simp only [Option.map_some'] at h
              cases h
              constructor
              · rw [refSegCount_cons]
                simp only [Option.isSome_some, if_true]
                rw [ih1]
                simp [refTriggerCount, h1, h2, hd, hc]
              · cases segs2 with
                | nil => simp [unrefOnlyTrailing]
                | cons a l2 =>
                  simp only [unrefOnlyTrailing] at ih2 ⊢
                  simp [List.dropLast, ih2]
        | statsD k v =>
          by_cases hc : chunks.isEmpty = true
          · simp [buildSegments, h1, h2, hd, hc] at h
            have := ih _ _ h
            simpa [refTriggerCount, h1, h2, hd, hc] using this
          · simp [buildSegments, h1, h2, hd, hc] at h
        | strD s =>
          simp [buildSegments, h1, h2, hd] at h
          have := ih _ _ h
          simpa [refTriggerCount, h1, h2, hd] using this
        | arrD a b c =>
          simp [buildSegments, h1, h2, hd] at h
          have := ih _ _ h
          simpa [refTriggerCount, h1, h2, hd] using this
        | noneD =>
          simp [buildSegments, h1, h2, hd] at h
          have := ih _ _ h
          simpa [refTriggerCount, h1, h2, hd] using this
      · simp [buildSegments, h1, h2] at h
        have := ih _ _ h
        simpa [refTriggerCount, h1, h2] using this

/-- The conversation entries pair up with the queries, each built by
the segment loop from that query's fragments. -/
theorem convOf_pairs (queries : List ApiQuery) :
    ∀ conv, convOf queries = some conv →
      List.Forall₂ (fun q cq => buildSegments q.response [] = some cq.answer_segments)
        queries conv := by
  induction queries with
  | nil =>
    intro conv h
    rw [convOf] at h
    cases h
    exact List.Forall₂.nil
  | cons q qs ih =>
    intro conv h
    rw [convOf] at h
    cases hb : buildSegments q.response [] with
    | none => rw [hb] at h; simp at h
    | some segs =>
      rw [hb] at h
      cases hc : convOf qs with
      | none => rw [hc] at h; simp at h
      | some rest =>
        rw [hc] at h
        cases h
        exact List.Forall₂.cons hb (ih rest hc)

/-- The search-marker filter only rewrites the text of the first
segment of the first turn, so the per-turn counting property survives
it. -/
theorem forall2_c1Pair_filter (qs : List ApiQuery) (conv : List ConversationQuery)
    (h : List.Forall₂ c1Pair qs conv) :
    List.Forall₂ c1Pair qs (applySearchFilter conv) := by
  cases conv with
  | nil => simpa [applySearchFilter] using h
  | cons c rest =>
    cases h with
    | cons hqc htail =>
      rename_i q qs'
      cases hs : c.answer_segments with
      | nil =>
        simp only [applySearchFilter, hs]
        exact List.Forall₂.cons hqc htail
      | cons s ss =>
        simp only [applySearchFilter, hs]
        by_cases ht : truthyStr s.text = true
        · rw [if_pos ht]
          refine List.Forall₂.cons ?_ htail
          obtain ⟨h1, h2⟩ := hqc
          rw [hs] at h1 h2
          constructor
          · rw [show ({ c with answer_segments :=
              { s with text := filterSearchText s.text } :: ss } :
                ConversationQuery).answer_segments =
              { s with text := filterSearchText s.text } :: ss from rfl]
            rw [refSegCount_cons] at h1 ⊢
            exact h1
          · rw [show ({ c with answer_segments :=
              { s with text := filterSearchText s.text } :: ss } :
                ConversationQuery).answer_segments =
              { s with text := filterSearchText s.text } :: ss from rfl]
            cases ss with
            | nil => simp [unrefOnlyTrailing]
            | cons b l2 =>
              simp only [unrefOnlyTrailing, List.dropLast] at h2 ⊢
              simpa using h2
        · rw [if_neg ht]
          exact List.Forall₂.cons hqc htail

/-- C1, amended: for every input accepted without error, the number of
answer segments carrying a reference in each turn equals the number of
object-data reference fragments that arrive while the pending chunk
buffer is non-empty (range degeneracy does not matter at
segmentation), and every answer segment except possibly the trailing
one carries a reference. -/
theorem c1_theorem (input : InputResponse) (out : OutputResponse)
    (h : transformResponse input = some out) :
    List.Forall₂ c1Pair (rawQueries input.rawResponse) out.conversation := by
  cases hr : rawQueries input.rawResponse with
  | nil => simp [transformResponse, hr] at h
  | cons q0 qs =>
    simp only [transformResponse, hr] at h
    cases hc : convOf (q0 :: qs) with
    | none => rw [hc] at h; simp at h
    | some conv =>
      rw [hc] at h
      simp only [Option.some.injEq] at h
      have hp := convOf_pairs (q0 :: qs) conv hc
      have hp2 : List.Forall₂ c1Pair (q0 :: qs) conv := by
        refine hp.imp ?_
        intro q cq hb
        have := buildSegments_count q.response [] cq.answer_segments hb
        simpa [c1Pair] using this
      have := forall2_c1Pair_filter (q0 :: qs) conv hp2
      rw [← h]
      exact this

/-- C1, witness: the amended property at a concrete three-fragment
input. -/
theorem c1_witness :
    List.Forall₂ c1Pair (rawQueries c1WitInput.rawResponse) c1WitOut.conversation :=
  c1_theorem c1WitInput c1WitOut (by decide)

/-- The run-max accumulator dominates both its arguments. -/
theorem backtickRunMax_ge (s : Str) :
    ∀ cur best, cur ≤ backtickRunMax s cur best ∧ best ≤ backtickRunMax s cur best := by
  induction s with
  | nil =>
    intro cur best
    simp [backtickRunMax]
  | cons c rest ih =>
    intro cur best
    by_cases h : c = backtickChar
    · rw [backtickRunMax, if_pos h]
      have := ih (cur + 1) best
      omega
    · rw [backtickRunMax, if_neg h]
      have := ih 0 (max best cur)
      omega

/-- Running the scanner through a backtick run adds the run length to
the current-run counter. -/
theorem backtickRunMax_replicate (n : Nat) :
    ∀ (post : Str) (cur best : Nat),
      backtickRunMax (List.replicate n backtickChar ++ post) cur best =
        backtickRunMax post (cur + n) best := by
  induction n with
  | zero => intro post cur best; simp
  | succ m ih =>
    intro post cur best
    rw [List.replicate_succ, List.cons_append, backtickRunMax, if_pos rfl, ih]
    congr 1
    omega

/-- Any backtick run of length `n` inside `s` bounds the scanned
maximum from below. -/
theorem containsRun_le_max (s : Str) (n : Nat) (h : containsRun s n) :
    n ≤ backtickRunMax s 0 0 := by
  obtain ⟨pre, post, rfl⟩ := h
  suffices hgen : ∀ (pre : Str) (cur best : Nat),
      n ≤ backtickRunMax (pre ++ (List.replicate n backtickChar ++ post)) cur best by
    simpa using hgen pre 0 0
  intro pre
  induction pre with
  | nil =>
    intro cur best
    rw [List.nil_append, backtickRunMax_replicate]
    have := backtickRunMax_ge post (cur + n) best
    omega
  | cons c rest ih =>
    intro cur best
    by_cases hb : c = backtickChar
    · rw [List.cons_append, backtickRunMax, if_pos hb]
      exact ih _ _
    · rw [List.cons_append, backtickRunMax, if_neg hb]
      exact ih _ _

/-- C6: for every content containing a run of `n` consecutive
backticks, the fence chosen by `getCodeFence` (used for both snippet
and full-context code blocks) is a run of at least `max 3 (n+1)`
backticks, equal on both sides, and the content contains no run as
long as the fence - the rendered block is therefore syntactically
closed. -/
theorem c6_theorem (content : Str) (n : Nat) (h : containsRun content n) :
    (getCodeFence content).1 = (getCodeFence content).2 ∧
      (getCodeFence content).1 = List.replicate (fenceLength content) backtickChar ∧
      3 ≤ fenceLength content ∧
      n + 1 ≤ fenceLength content ∧
      ¬ containsRun content (fenceLength content) := by
  have hn := containsRun_le_max content n h
  refine ⟨rfl, rfl, ?_, ?_, ?_⟩
  · exact Nat.le_max_left _ _
  · have : n + 1 ≤ backtickRunMax content 0 0 + 1 := by omega
    exact le_trans this (Nat.le_max_right _ _)
  · intro hcon
    have := containsRun_le_max content (fenceLength content) hcon
    have h2 : backtickRunMax content 0 0 + 1 ≤ fenceLength content := Nat.le_max_right _ _
    omega

/-- C6, witness: the fence for a content with a two-backtick run has
length at least three. -/
theorem c6_witness : 3 ≤ fenceLength c6Content ∧ 2 + 1 ≤ fenceLength c6Content :=
  ⟨(c6_theorem c6Content 2 ⟨['a'], ['b'], rfl⟩).2.2.1,
   (c6_theorem c6Content 2 ⟨['a'], ['b'], rfl⟩).2.2.2.1⟩

/-- A character is ASCII alphanumeric iff it is in the
alphanumeric-or-hyphen class and is not the hyphen. -/
theorem alnumHyphen_char (c : Char) :
    isAlnumAscii c = (isAlnumHyphen c && decide (c ≠ '-')) := by
  by_cases h : c = '-'
  · subst h; decide
  · simp [isAlnumHyphen, h]

/-- The tail regex `[a-zA-Z0-9-]*[a-zA-Z0-9]` accepts exactly the
non-empty strings of alphanumerics and hyphens not ending in a
hyphen. -/
theorem matchSegTail_eq (l : Str) :
    matchSegTail l =
      (l.all isAlnumHyphen &&
        (match l.getLast? with
         | some d => decide (d ≠ '-')
         | none => false)) := by
  induction l with
  | nil => simp [matchSegTail]
  | cons c rest ih =>
    cases rest with
    | nil =>
      simp only [matchSegTail, List.all_cons, List.all_nil, List.getLast?_singleton]
      rw [alnumHyphen_char c]
      cases h1 : isAlnumHyphen c <;> cases h2 : decide (c ≠ '-') <;> rfl
    | cons d rest2 =>
      simp only [matchSegTail] at ih ⊢
      rw [ih]
      simp only [List.all_cons, List.getLast?_cons_cons]
      cases hL : (d :: rest2).getLast? with
      | none =>
        cases h1 : isAlnumHyphen c <;> cases h2 : isAlnumHyphen d <;>
          cases h3 : rest2.all isAlnumHyphen <;> rfl
      | some e =>
        cases h1 : isAlnumHyphen c <;> cases h2 : isAlnumHyphen d <;>
          cases h3 : rest2.all isAlnumHyphen <;> cases h4 : decide (e ≠ '-') <;> rfl

/-- The source's segment regex agrees with the spec-side segment
well-formedness predicate. -/
theorem validSeg_eq (s : Str) : validSegPattern s = segWellFormed s := by
  cases s with
  | nil => rfl
  | cons c rest =>
    cases rest with
    | nil =>
      simp only [validSegPattern, segWellFormed, List.isEmpty, Bool.or_false,
        List.all_cons, List.all_nil, List.getLast?_singleton]
      rw [alnumHyphen_char c]
      cases h1 : isAlnumHyphen c <;> cases h2 : decide (c ≠ '-') <;> rfl
    | cons d rest2 =>
      simp only [validSegPattern, segWellFormed, List.isEmpty, Bool.false_or,
        matchSegTail_eq, List.all_cons, List.getLast?_cons_cons]
      rw [alnumHyphen_char c]
      cases hL : (d :: rest2).getLast? with
      | none =>
        cases h1 : isAlnumHyphen c <;> cases h2 : decide (c ≠ '-') <;>
          cases h3 : isAlnumHyphen d <;> cases h4 : rest2.all isAlnumHyphen <;> rfl
      | some e =>
        cases h1 : isAlnumHyphen c <;> cases h2 : decide (c ≠ '-') <;>
          cases h3 : isAlnumHyphen d <;> cases h4 : rest2.all isAlnumHyphen <;>
          cases h5 : decide (e ≠ '-') <;> rfl

/-- A spec-well-formed segment is non-empty, hence truthy. -/
theorem segWF_truthy (x : Str) (h : segWellFormed x = true) : truthyStr x = true := by
  cases x with
  | nil => exact absurd h (by decide)
  | cons c r => simp [truthyStr, List.isEmpty]

/-- `validateRepo` throws exactly on strings whose trimmed form is not
a well-formed `owner/repo`. -/
theorem validateRepoErr_iff (repo : Str) :
    (validateRepoErr repo).isSome = true ↔ repoWellFormed (jsTrim repo) = false := by
  by_cases h0 : truthyStr repo = true
  · by_cases h1 : (jsTrim repo).isEmpty = true
    · have htrim : jsTrim repo = [] := by simpa [List.isEmpty_iff] using h1
      simp [validateRepoErr, h0, h1, htrim, repoWellFormed, splitOnChar, splitOnCharGo]
    · rcases hsplit : splitOnChar '/' (jsTrim repo) with _ | ⟨a, _ | ⟨b, _ | ⟨c2, t⟩⟩⟩
      · simp [validateRepoErr, h0, h1, hsplit, repoWellFormed]
      · simp [validateRepoErr, h0, h1, hsplit, repoWellFormed]
      · simp only [validateRepoErr, repoWellFormed, hsplit, h0, Bool.not_true, if_false,
          Bool.false_eq_true, h1]
        rw [validSeg_eq a, validSeg_eq b]
        cases hA : segWellFormed a with
        | false =>
          apply iff_of_true
          · split <;> simp [hA]
          · simp [hA]
        | true =>
          cases hB : segWellFormed b with
          | false =>
            apply iff_of_true
            · split <;> simp [hA, hB]
            · simp [hB]
          | true =>
            have ha := segWF_truthy a hA
            have hb := segWF_truthy b hB
            apply iff_of_false
            · simp [ha, hb, hA, hB]
            · simp [hA, hB]
      · simp [validateRepoErr, h0, h1, hsplit, repoWellFormed]
  · have hrepo : repo = [] := by
      cases repo with
      | nil => rfl
      | cons c r => simp [truthyStr, List.isEmpty] at h0
    subst hrepo
    decide

/-- `validateQuestion` throws exactly on questions whose trimmed form
is empty or longer than 10,000 characters. -/
theorem validateQuestionErr_iff (q : Str) :
    (validateQuestionErr q).isSome = true ↔
      (jsTrim q = [] ∨ 10000 < (jsTrim q).length) := by
  by_cases h0 : truthyStr q = true
  · by_cases h1 : (jsTrim q).isEmpty = true
    · have htrim : jsTrim q = [] := by simpa [List.isEmpty_iff] using h1
      simp [validateQuestionErr, h0, h1, htrim]
    · have hne : ¬ jsTrim q = [] := by simpa [List.isEmpty_iff] using h1
      by_cases h2 : 10000 < (jsTrim q).length
      · simp [validateQuestionErr, h0, h1, h2, hne]
      · simp [validateQuestionErr, h0, h1, h2, hne]
  · have hq : q = [] := by
      cases q with
      | nil => rfl
      | cons c r => simp [truthyStr, List.isEmpty] at h0
    subst hq
    decide

/-- `validateQueryId` throws exactly on identifiers whose trimmed form
is empty or contains a character outside the allowed class. -/
theorem validateQueryIdErr_iff (qid : Str) :
    (validateQueryIdErr qid).isSome = true ↔
      (jsTrim qid = [] ∨ ∃ c ∈ jsTrim qid, isQueryIdChar c = false) := by
  by_cases h0 : truthyStr qid = true
  · by_cases h1 : (jsTrim qid).isEmpty = true
    · have htrim : jsTrim qid = [] := by simpa [List.isEmpty_iff] using h1
      simp [validateQueryIdErr, h0, h1, htrim]
    · have hne : ¬ jsTrim qid = [] := by simpa [List.isEmpty_iff] using h1
      by_cases h3 : queryIdPattern (jsTrim qid) = true
      · have hall : (jsTrim qid).all isQueryIdChar = true := by
          have h4 := h3
          simp [queryIdPattern] at h4
          exact List.all_eq_true.mpr h4.2
        simp [validateQueryIdErr, h0, h1, h3, hne]
        intro c hc
        simp [List.all_eq_true.mp hall c hc]
      · have hnall : ¬ (jsTrim qid).all isQueryIdChar = true := by
          intro hall
          apply h3
          rw [queryIdPattern]
          simp [hall, h1]
        rw [List.all_eq_true] at hnall
        push_neg at hnall
        obtain ⟨c, hc, hbad⟩ := hnall
        simp [validateQueryIdErr, h0, h1, h3, hne]
        exact ⟨c, hc, by simpa using hbad⟩
  · have hq : qid = [] := by
      cases qid with
      | nil => rfl
      | cons c r => simp [truthyStr, List.isEmpty] at h0
    subst hq
    decide

/-- C8, amended: the three validators throw exactly on malformed
input, with the repository check applying to the trimmed repository
string: `validateRepo` throws iff the trimmed string is not of the
form `owner/repo` with each segment non-empty, alphanumeric-and-hyphen
and not hyphen-bounded; `validateQuestion` throws iff the trimmed
question is empty or longer than 10,000 characters; `validateQueryId`
throws iff the trimmed identifier is empty or contains a character
outside alphanumerics, hyphen and underscore. -/
theorem c8_theorem :
    (∀ repo : Str, (validateRepoErr repo).isSome = true ↔
      repoWellFormed (jsTrim repo) = false) ∧
    (∀ question : Str, (validateQuestionErr question).isSome = true ↔
      (jsTrim question = [] ∨ 10000 < (jsTrim question).length)) ∧
    (∀ queryId : Str, (validateQueryIdErr queryId).isSome = true ↔
      (jsTrim queryId = [] ∨ ∃ c ∈ jsTrim queryId, isQueryIdChar c = false)) :=
  ⟨validateRepoErr_iff, validateQuestionErr_iff, validateQueryIdErr_iff⟩

/-- In every branch, the finishing pipeline returns a markdown
outcome, never a thrown error. -/
theorem toolFinish_ne_err (env : ToolEnv) (p : WikiQuestionParams) (j : OutputResponse)
    (aq : Str) (au : Bool) (m : Str) : toolFinish env p j aq au ≠ ToolOutcome.err m := by
  simp only [toolFinish]
  repeat' split
  all_goals simp

/-- C9, amended: for every call that passes parameter validation and
supplies a (truthy) query id with neither `goDeeper` nor
`followUpQuestion` set, the call fails with the user-facing
`No cached response found` error iff the cache lookup for that id and
repository returns nothing; on a hit the cached response is passed
as-is to the finishing pipeline and no browser automation runs. -/
theorem c9_theorem (env : ToolEnv) (p : WikiQuestionParams) (qid : Str)
    (hv : validationError p = none) (hg : p.goDeeper = false)
    (hf : optTruthy p.followUpQuestion = false) (hq : p.queryId = some qid)
    (ht : truthyStr qid = true) :
    ((wikiQuestionTool env p = .err (noCacheMsg qid)) ↔
      env.cacheQuestion qid p.repo = none) ∧
    (∀ j, env.cacheQuestion qid p.repo = some j →
      wikiQuestionTool env p = toolFinish env p j qid false) := by
  have hqt : optTruthy (some qid) = true := by simpa [optTruthy] using ht
  constructor
  · cases hc : env.cacheQuestion qid p.repo with
    | none =>
      apply iff_of_true
      · simp [wikiQuestionTool, hv, hg, hf, hq, hqt, hc]
      · rfl
    | some j =>
      apply iff_of_false
      · simp [wikiQuestionTool, hv, hg, hf, hq, hqt, hc]
        exact toolFinish_ne_err env p j qid false (noCacheMsg qid)
      · simp
  · intro j hc
    simp [wikiQuestionTool, hv, hg, hf, hq, hqt, hc]

/-- C9, witness: concrete miss case of the amended equivalence. -/
theorem c9_witness : wikiQuestionTool c9WitEnv c9WitParams = .err (noCacheMsg "abc".data) :=
  (c9_theorem c9WitEnv c9WitParams "abc".data (by decide) rfl rfl rfl (by decide)).1.mpr rfl

/-- Membership in a deduplicating insertion. -/
theorem mem_insertDedup (acc : List Str) (x y : Str) :
    y ∈ insertDedup acc x ↔ y ∈ acc ∨ y = x := by
  by_cases h : x ∈ acc
  · simp only [insertDedup, if_pos h]
    constructor
    · exact Or.inl
    · rintro (h1 | rfl)
      · exact h1
      · exact h
  · simp [insertDedup, h]

/-- Membership in the included-references set built from a selection:
exactly the references picked by some in-bounds number of the
selection. -/
theorem mem_buildIncluded (uniq : List Str) :
    ∀ (sel : List Int) (acc : List Str) (y : Str),
      y ∈ buildIncluded uniq sel acc ↔
        y ∈ acc ∨ ∃ n ∈ sel, selPick uniq n = some y := by
  intro sel
  induction sel with
  | nil => intro acc y; simp [buildIncluded]
  | cons n ns ih =>
    intro acc y
    cases hp : selPick uniq n with
    | none =>
      rw [buildIncluded, hp]
      rw [ih]
      simp only [List.mem_cons]
      constructor
      · rintro (h1 | ⟨m, hm, hpick⟩)
        · exact Or.inl h1
        · exact Or.inr ⟨m, Or.inr hm, hpick⟩
      · rintro (h1 | ⟨m, hm | hm, hpick⟩)
        · exact Or.inl h1
        · subst hm; rw [hp] at hpick; cases hpick
        · exact Or.inr ⟨m, hm, hpick⟩
    | some r =>
      rw [buildIncluded, hp]
      rw [ih]
      simp only [mem_insertDedup, List.mem_cons]
      constructor
      · rintro ((h1 | rfl) | ⟨m, hm, hpick⟩)
        · exact Or.inl h1
        · exact Or.inr ⟨n, Or.inl rfl, hp⟩
        · exact Or.inr ⟨m, Or.inr hm, hpick⟩
      · rintro (h1 | ⟨m, hm | hm, hpick⟩)
        · exact Or.inl (Or.inl h1)
        · subst hm
          rw [hp] at hpick
          cases hpick
          exact Or.inl (Or.inr rfl)
        · exact Or.inr ⟨m, hm, hpick⟩

/-- Key-presence after adding one (file, range) pair. -/
theorem hasKey_addRange (f' rng' : Str) :
    ∀ (m : List (Str × List Str)) (f : Str),
      hasRangesKey (addRange m f' rng') f = (hasRangesKey m f || decide (f = f')) := by
  intro m
  induction m with
  | nil =>
    intro f
    by_cases h : f' = f
    · subst h
      simp [addRange, hasRangesKey, alookup]
    · have h2 : ¬ f = f' := fun hh => h hh.symm
      simp [addRange, hasRangesKey, alookup, h, h2]
  | cons kv rest ih =>
    intro f
    obtain ⟨k, rs⟩ := kv
    by_cases hk : k = f'
    · subst hk
      by_cases hkf : k = f
      · subst hkf
        simp [addRange, hasRangesKey, alookup]
      · have h2 : ¬ f = k := fun hh => hkf hh.symm
        simp [addRange, hasRangesKey, alookup, hkf, h2]
    · by_cases hkf : k = f
      · subst hkf
        simp [addRange, hasRangesKey, alookup, hk]
      · simp [addRange, hasRangesKey, alookup, hk, hkf]
        exact ih f

/-- Range-membership after adding one (file, range) pair. -/
theorem rangeIncluded_addRange (f' rng' : Str) :
    ∀ (m : List (Str × List Str)) (f rng : Str),
      rangeIncluded (addRange m f' rng') f rng =
        (rangeIncluded m f rng || (decide (f = f') && decide (rng = rng'))) := by
  intro m
  induction m with
  | nil =>
    intro f rng
    by_cases h : f' = f
    · subst h
      simp [addRange, rangeIncluded, alookup, eq_comm]
    · have h2 : ¬ f = f' := fun hh => h hh.symm
      simp [addRange, rangeIncluded, alookup, h, h2]
  | cons kv rest ih =>
    intro f rng
    obtain ⟨k, rs⟩ := kv
    by_cases hk : k = f'
    · subst hk
      by_cases hkf : k = f
      · subst hkf
        by_cases hmem : rng' ∈ rs
        · by_cases hr : rng = rng'
          · subst hr
            simp [addRange, rangeIncluded, alookup, hmem]
          · simp [addRange, rangeIncluded, alookup, hmem, hr]
        · simp [addRange, rangeIncluded, alookup, hmem, List.mem_append]
      · have h2 : ¬ f = k := fun hh => hkf hh.symm
        simp [addRange, rangeIncluded, alookup, hkf, h2]
    · by_cases hkf : k = f
      · subst hkf
        simp [addRange, rangeIncluded, alookup, hk]
      · simp [addRange, rangeIncluded, alookup, hk, hkf]
        exact ih f rng

/-- Key-presence in the built ranges map: some included reference
parses to that file. -/
theorem hasKey_buildGo :
    ∀ (incl : List Str) (acc : List (Str × List Str)) (f : Str),
      hasRangesKey (buildFileRangesGo incl acc) f =
        (hasRangesKey acc f ||
          incl.any (fun ref =>
            match parseRefString ref with
            | some p => decide (p.1 = f)
            | none => false)) := by
  intro incl
  induction incl with
  | nil => intro acc f; simp [buildFileRangesGo]
  | cons ref rest ih =>
    intro acc f
    cases hp : parseRefString ref with
    | none => simp [buildFileRangesGo, hp, ih]
    | some p =>
      obtain ⟨g, r⟩ := p
      simp only [buildFileRangesGo, hp, List.any_cons, ih, hasKey_addRange]
      by_cases hf : f = g
      · subst hf
        simp
      · have h2 : ¬ g = f := fun hh => hf hh.symm
        simp [hf, h2]

/-- Range-membership in the built ranges map: some included reference
parses to exactly that (file, range) pair. -/
theorem rangeIncluded_buildGo :
    ∀ (incl : List Str) (acc : List (Str × List Str)) (f rng : Str),
      rangeIncluded (buildFileRangesGo incl acc) f rng =
        (rangeIncluded acc f rng ||
          incl.any (fun ref => decide (parseRefString ref = some (f, rng)))) := by
  intro incl
  induction incl with
  | nil => intro acc f rng; simp [buildFileRangesGo]
  | cons ref rest ih =>
    intro acc f rng
    cases hp : parseRefString ref with
    | none => simp [buildFileRangesGo, hp, ih]
    | some p =>
      obtain ⟨g, r⟩ := p
      simp only [buildFileRangesGo, hp, List.any_cons, ih, rangeIncluded_addRange]
      by_cases hf : f = g
      · subst hf
        by_cases hr : rng = r
        · subst hr
          simp
        · have h2 : ¬ (r = rng) := fun hh => hr hh.symm
          simp [hr, h2, Bool.or_assoc]
      · have h2 : ¬ ((f, rng) = (g, r)) := by
          intro hh
          exact hf (congrArg Prod.fst hh)
        have h3 : ¬ (some (g, r) = some (f, rng)) := by
          intro hh
          exact h2 (Option.some.inj hh).symm
        simp [hf, h3, Bool.or_assoc]

/-- Two lists with the same members satisfy the same `any`. -/
theorem any_ext (l1 l2 : List Str) (h : ∀ y, y ∈ l1 ↔ y ∈ l2) (q : Str → Bool) :
    l1.any q = l2.any q := by
  cases h1 : l1.any q with
  | true =>
    obtain ⟨x, hx, hq⟩ := List.any_eq_true.mp h1
    exact (List.any_eq_true.mpr ⟨x, (h x).mp hx, hq⟩).symm
  | false =>
    cases h2 : l2.any q with
    | false => rfl
    | true =>
      obtain ⟨x, hx, hq⟩ := List.any_eq_true.mp h2
      have := List.any_eq_true.mpr ⟨x, (h x).mpr hx, hq⟩
      rw [h1] at this
      cases this

/-- Snippet-entry rendering only queries range membership. -/
theorem renderRefEntries_ext (f : Str) (frm1 frm2 : List (Str × List Str))
    (h : ∀ rng, rangeIncluded frm1 f rng = rangeIncluded frm2 f rng) :
    ∀ es, renderRefEntries f frm1 es = renderRefEntries f frm2 es := by
  intro es
  induction es with
  | nil => rfl
  | cons e rest ih => simp [renderRefEntries, h e.reference_range, ih]

/-- The Referenced Files body only queries key presence and range
membership of the ranges map. -/
theorem renderRefFilesBody_ext (frm1 frm2 : List (Str × List Str))
    (hk : ∀ f, hasRangesKey frm1 f = hasRangesKey frm2 f)
    (hr : ∀ f rng, rangeIncluded frm1 f rng = rangeIncluded frm2 f rng) :
    ∀ rf, renderRefFilesBody frm1 rf = renderRefFilesBody frm2 rf := by
  intro rf
  induction rf with
  | nil => rfl
  | cons kv rest ih =>
    obtain ⟨fileName, entries⟩ := kv
    simp [renderRefFilesBody, hk fileName, ih, renderRefEntries_ext fileName frm1 frm2 (hr fileName)]

/-- Permutation invariance of the Referenced Files section under the
number selection. -/
theorem formatReferencedFiles_perm (d : OutputResponse) (all : Bool)
    (s1 s2 : List Int) (hperm : s1.Perm s2) :
    formatReferencedFiles d all (some s1) = formatReferencedFiles d all (some s2) := by
  cases all with
  | true => rfl
  | false =>
    unfold formatReferencedFiles
    simp only [Bool.false_eq_true, if_false]
    have hmem : ∀ y, y ∈ buildIncluded (collectUniqueReferences d.conversation) s1 [] ↔
        y ∈ buildIncluded (collectUniqueReferences d.conversation) s2 [] := by
      intro y
      rw [mem_buildIncluded, mem_buildIncluded]
      constructor
      · rintro (h | ⟨n, hn, hp⟩)
        · exact Or.inl h
        · exact Or.inr ⟨n, hperm.mem_iff.mp hn, hp⟩
      · rintro (h | ⟨n, hn, hp⟩)
        · exact Or.inl h
        · exact Or.inr ⟨n, hperm.mem_iff.mpr hn, hp⟩
    have hk : ∀ f, hasRangesKey (buildFileRanges
        (buildIncluded (collectUniqueReferences d.conversation) s1 [])) f =
        hasRangesKey (buildFileRanges
          (buildIncluded (collectUniqueReferences d.conversation) s2 [])) f := by
      intro f
      rw [buildFileRanges, buildFileRanges, hasKey_buildGo, hasKey_buildGo]
      simp only [hasRangesKey, alookup, Option.isSome_none, Bool.false_or]
      exact any_ext _ _ hmem _
    have hr : ∀ f rng, rangeIncluded (buildFileRanges
        (buildIncluded (collectUniqueReferences d.conversation) s1 [])) f rng =
        rangeIncluded (buildFileRanges
          (buildIncluded (collectUniqueReferences d.conversation) s2 [])) f rng := by
      intro f rng
      rw [buildFileRanges, buildFileRanges, rangeIncluded_buildGo, rangeIncluded_buildGo]
      simp only [rangeIncluded, alookup, Bool.false_or]
      exact any_ext _ _ hmem _
    rw [renderRefFilesBody_ext _ _ hk hr d.referenced_files]

/-- The per-turn reference collection is a fold of `insertDedup` over
the turn's references. -/
theorem segfold_eq_filterMap (segs : List AnswerSegment) :
    ∀ acc : List Str,
      segs.foldl
        (fun acc s =>
          match s.reference with
          | some r => insertDedup acc r
          | none => acc)
        acc =
      (segs.filterMap (fun s => s.reference)).foldl insertDedup acc := by
  induction segs with
  | nil => intro acc; rfl
  | cons s rest ih =>
    intro acc
    cases hr : s.reference with
    | none => simp [List.filterMap_cons, hr, ih]
    | some r => simp [List.filterMap_cons, hr, ih]

/-- The whole-conversation reference collection is a fold of
`insertDedup` over the flattened reference list. -/
theorem collectUnique_eq_fold (conv : List ConversationQuery) :
    ∀ acc : List Str,
      conv.foldl
        (fun acc q =>
          q.answer_segments.foldl
            (fun acc s =>
              match s.reference with
              | some r => insertDedup acc r
              | none => acc)
            acc)
        acc =
      (flatReferences conv).foldl insertDedup acc := by
  induction conv with
  | nil => intro acc; rfl
  | cons q rest ih =>
    intro acc
    simp only [List.foldl_cons, flatReferences, List.map_cons, List.join, List.foldl_append]
    rw [segfold_eq_filterMap, ih]
    simp [flatReferences]

/-- Folding `insertDedup` keeps the accumulator and appends the
first-seen deduplication of the unseen elements. -/
theorem foldl_insertDedup_firstSeen (l : List Str) :
    ∀ acc : List Str,
      l.foldl insertDedup acc =
        acc ++ firstSeenDedup (l.filter (fun y => decide (y ∉ acc))) := by
  induction l with
  | nil => intro acc; simp [firstSeenDedup]
  | cons x xs ih =>
    intro acc
    by_cases hx : x ∈ acc
    · have h1 : insertDedup acc x = acc := by simp [insertDedup, hx]
      have h2 : (fun y => decide (y ∉ acc)) x = false := by simp [hx]
      simp only [List.foldl_cons, h1, List.filter_cons, h2]
      exact ih acc
    · have h1 : insertDedup acc x = acc ++ [x] := by simp [insertDedup, hx]
      have h2 : (fun y => decide (y ∉ acc)) x = true := by simp [hx]
      simp only [List.foldl_cons, h1, List.filter_cons, h2, if_true]
      rw [ih (acc ++ [x])]
      have hfsd : firstSeenDedup (x :: xs.filter (fun y => decide (y ∉ acc))) =
          x :: firstSeenDedup
            ((xs.filter (fun y => decide (y ∉ acc))).filter (fun y => decide (y ≠ x))) := by
        simp [firstSeenDedup]
      rw [hfsd]
      have hfilter : xs.filter (fun y => decide (y ∉ acc ++ [x])) =
          (xs.filter (fun y => decide (y ∉ acc))).filter (fun y => decide (y ≠ x)) := by
        rw [List.filter_filter]
        apply List.filter_congr
        intro a _
        by_cases h1 : a ∈ acc
        · simp [h1, List.mem_append]
        · by_cases h2 : a = x
          · simp [h1, h2, List.mem_append]
          · simp [h1, h2, List.mem_append]
      rw [hfilter]
      simp

/-- C5: the rendered markdown is invariant under permutation of the
`referencesNumbers` selection, and the deduplicated reference list the
renderer numbers is exactly the first-seen deduplication of the
reference strings in reading order across all conversation turns. -/
theorem c5_theorem :
    (∀ (d : OutputResponse) (opts : MarkdownOptions) (s1 s2 : List Int), s1.Perm s2 →
        generateMarkdown d { opts with referencesNumbers := some s1 } =
          generateMarkdown d { opts with referencesNumbers := some s2 }) ∧
    (∀ conv : List ConversationQuery,
        collectUniqueReferences conv = firstSeenDedup (flatReferences conv)) := by
  constructor
  · intro d opts s1 s2 hperm
    have h1 : formatReferencedFiles d opts.referencesAll (some s1) =
        formatReferencedFiles d opts.referencesAll (some s2) :=
      formatReferencedFiles_perm d opts.referencesAll s1 s2 hperm
    simp [generateMarkdown, h1]
  · intro conv
    unfold collectUniqueReferences
    rw [collectUnique_eq_fold conv [], foldl_insertDedup_firstSeen]
    have h2 : (flatReferences conv).filter (fun y => decide (y ∉ ([] : List Str))) =
        flatReferences conv := by
      apply List.filter_eq_self.mpr
      intro a _
      simp
    simp [h2]

/-- C5, witness: swapping a two-element selection leaves the rendering
of the concrete witness document unchanged. -/
theorem c5_witness :
    generateMarkdown c5WitDoc { c5WitOpts with referencesNumbers := some [2, 1] } =
      generateMarkdown c5WitDoc { c5WitOpts with referencesNumbers := some [1, 2] } :=
  c5_theorem.1 c5WitDoc c5WitOpts [2, 1] [1, 2] (List.Perm.swap 1 2 [])
